import Mathlib

/-!
Shallow embedding of `polym_loop.py` (Polymatic polymerization loop controller).

The script drives a polymerization loop: an initialization conversion, a step-0
energy minimization, then a while-loop making bonds one at a time.  Each bond is
attempted by an external topology tool (`polym.pl`, exit 0 = bond made, exit 3 =
no candidate pair, anything else fatal); no-candidate outcomes are retried after
a perturbation MD pass, up to a maximum attempt count.  All external processes
(perl scripts, LAMMPS) are modelled by an `Oracle` giving each invocation's exit
code and whether it wrote its designated output artifact.  The filesystem is
modelled as a set of directory paths and file paths relative to the top-level
run directory, plus a working-directory cursor (`os.chdir` state).  Python-level
fatal conditions are an `Except` error: `Err.fatal` models `err_exit` (print +
`sys.exit(1)`), `Err.pyError` models an uncaught Python exception (which also
terminates the process with a nonzero status).
-/

namespace PolymLoop

/-- A path, as a list of name segments relative to the top-level run directory. -/
abbrev FsPath := List String

/-- Resolve a relative path (segments, possibly `".."`) against a working directory,
the way the OS resolves `os.chdir` / `shutil.copy` arguments in the script. -/
def resolvePath (cwd : FsPath) (rel : List String) : FsPath :=
  match rel with
  | [] => cwd
  | seg :: rest =>
    if seg = ".." then resolvePath cwd.dropLast rest
    else resolvePath (cwd ++ [seg]) rest

/-- Glob-name matching for the script's `glob.glob('step_*')` / `glob.glob('md_*')`:
a name matches the pattern `pre ++ "*"` iff it starts with `pre`. -/
def strStarts (pre s : String) : Bool := pre.data.isPrefixOf s.data

/-- `underGlob cwd pre p` holds when path `p` is an entry of directory `cwd` whose
name starts with `pre`, or lies inside such an entry: exactly the paths destroyed
by `for path in glob.glob(pre + "*"): shutil.rmtree(path)` executed at `cwd`. -/
def underGlob (cwd : FsPath) (pre : String) (p : FsPath) : Bool :=
  cwd.isPrefixOf p &&
    match p.drop cwd.length with
    | [] => false
    | n :: _ => strStarts pre n

/-- Outcome of one external process invocation: its exit status, and whether it
wrote its designated output file. -/
structure ToolRes where
  code : Int
  wrote : Bool
deriving DecidableEq

/-- The behaviour of all external collaborators (perl tools, LAMMPS), indexed by
invocation count where a tool is invoked repeatedly. -/
structure Oracle where
  stepTool : Nat → ToolRes
  initTool : ToolRes
  finalTool : ToolRes
  emTool : Nat → Bool
  mdTool : Nat → Bool

/-- The user parameters fixed in the script header.  `script_init`/`script_final`
record the test `script_init != 0` (the source holds either a tool name or 0). -/
structure Cfg where
  bonds_tot : Int
  bonds_cyc : Int
  md_cyc : Int
  md_max : Int
  keep : Int
  script_init : Bool
  script_final : Bool
deriving DecidableEq

/-- Process state: the mutable global `bonds`, the working-directory cursor, the
filesystem (directories and files), invocation counters used to index the oracle,
and ghost instrumentation (`created` = log of every directory ever created,
`aborted` = bond index at which exhaustion struck, `decrements` = number of times
`bonds -= 1` ran, `finalRuns` = number of times `polym_final` was entered,
`mdLog` = every `md(num)` call as a pair (bonds at call, num)). -/
structure World where
  bonds : Int
  cwd : FsPath
  dirs : List FsPath
  files : List FsPath
  stepCalls : Nat
  emCalls : Nat
  mdCalls : Nat
  created : List FsPath
  aborted : Option Int
  decrements : Nat
  finalRuns : Nat
  mdLog : List (Int × Nat)
deriving DecidableEq

/-- Terminal error conditions of the process. -/
inductive Err where
  | fatal : String → Err
  | pyError : String → Err
deriving DecidableEq

deriving instance DecidableEq for Except

/-- Record a file as present (copy / tool output target). -/
def addFile (p : FsPath) (w : World) : World :=
  { w with files := if p ∈ w.files then w.files else p :: w.files }

/-- Record a file as present when an external tool reports writing it. -/
def addFileIf (b : Bool) (p : FsPath) (w : World) : World :=
  if b then addFile p w else w

/-- `shutil.copy src dst`: raises (uncaught) if the source is absent. -/
def copyFile (src dst : List String) (w : World) : Except Err World :=
  if resolvePath w.cwd src ∈ w.files then
    Except.ok (addFile (resolvePath w.cwd dst) w)
  else Except.error (Err.pyError "shutil.copy: source file not found")

/-- `os.remove p`: raises (uncaught) if the file is absent. -/
def removeFile (p : List String) (w : World) : Except Err World :=
  if resolvePath w.cwd p ∈ w.files then
    Except.ok { w with
      files := w.files.filter (fun q => decide (q ≠ resolvePath w.cwd p)) }
  else Except.error (Err.pyError "os.remove: file not found")

/-- `for path in glob.glob(pre + "*"): shutil.rmtree(path)` at the current
directory: every entry of `cwd` whose name starts with `pre` is removed together
with everything below it. -/
def globRmtree (pre : String) (w : World) : World :=
  { w with dirs := w.dirs.filter (fun p => !underGlob w.cwd pre p),
           files := w.files.filter (fun p => !underGlob w.cwd pre p) }

/-- Left zero-padding used by `'{0:03d}'.format`. -/
def padZeros (width : Nat) (s : String) : String :=
  if s.length < width then String.mk (List.replicate (width - s.length) '0') ++ s
  else s

/-- Python `'{0:03d}'.format n` (sign counts toward the width). -/
def pad3 (n : Int) : String :=
  if n < 0 then "-" ++ padZeros 2 (toString (-n)) else padZeros 3 (toString n)

/-- `err_exit`: print the message and `sys.exit(1)`. -/
def err_exit {α : Type} (msg : String) : Except Err α :=
  Except.error (Err.fatal msg)

/-- `setup_step`: create `step_NNN` (fatal if it already exists), chdir into it,
and stage `../temp.lmps` as `data.lmps` (step 0) or `init.lmps` (bond steps). -/
def setup_step (w : World) : Except Err World :=
  let directory := "step_" ++ pad3 w.bonds
  let d := resolvePath w.cwd [directory]
  if d ∈ w.dirs ∨ d ∈ w.files then
    err_exit ("Directory " ++ directory ++ " already exists.")
  else
    let w1 : World :=
      { w with dirs := d :: w.dirs, created := w.created ++ [d], cwd := d }
    if w.bonds = 0 then copyFile ["..", "temp.lmps"] ["data.lmps"] w1
    else copyFile ["..", "temp.lmps"] ["init.lmps"] w1

/-- `setup_md num`: create `step_NNN_md` (num = 0) or `md_NNN` (num = attempt
index), fatal on collision, chdir into it, stage the input as `data.lmps`. -/
def setup_md (num : Nat) (w : World) : Except Err World :=
  let directory :=
    if num = 0 then "step_" ++ pad3 w.bonds ++ "_md" else "md_" ++ pad3 (num : Int)
  let d := resolvePath w.cwd [directory]
  if d ∈ w.dirs ∨ d ∈ w.files then
    err_exit ("Directory " ++ directory ++ " already exists.")
  else
    let w1 : World :=
      { w with dirs := d :: w.dirs, created := w.created ++ [d], cwd := d }
    if num = 0 then copyFile ["..", "temp.lmps"] ["data.lmps"] w1
    else copyFile ["..", "init.lmps"] ["data.lmps"] w1

/-- `em`: LAMMPS energy minimization inside the current step directory.  Success
is judged solely by the presence of `min.lmps`; on success the result is
propagated to `../temp.lmps`, the cursor pops, and (if `keep == 0`) every
`step_*` sibling is removed. -/
def em (cfg : Cfg) (orc : Oracle) (w : World) : Except Err World :=
  match copyFile ["..", "scripts", "min.in"] ["min.in"] w with
  | Except.error e => Except.error e
  | Except.ok w1 =>
    let wrote := orc.emTool w1.emCalls
    let w2 : World := { w1 with emCalls := w1.emCalls + 1 }
    let w3 := addFile (resolvePath w2.cwd ["out"]) w2
    let w4 := addFileIf wrote (resolvePath w3.cwd ["min.lmps"]) w3
    if resolvePath w4.cwd ["min.lmps"] ∈ w4.files then
      match copyFile ["min.lmps"] ["..", "temp.lmps"] w4 with
      | Except.error e => Except.error e
      | Except.ok w5 =>
        let w6 : World := { w5 with cwd := w5.cwd.dropLast }
        if cfg.keep = 0 then Except.ok (globRmtree "step_" w6) else Except.ok w6
    else err_exit "LAMMPS energy minimization did not complete properly."

/-- `md num`: LAMMPS molecular dynamics (num = 0 perturbation inside a step
directory, num = 1 or 2 equilibration at top level).  Success is judged solely
by the presence of `md.lmps`; the result is propagated to `../init.lmps`
(num = 0) or `../temp.lmps`, the cursor pops, and (if `keep == 0`) the sibling
`md_*` (num = 0) or `step_*` directories are removed.  Call sites only use
num in {0, 1, 2}. -/
def mdInputName (num : Nat) : String :=
  if num = 0 then "md0.in" else if num = 1 then "md1.in" else "md2.in"

/-- The input script copy source of `md num`: `../../scripts/` for the
perturbation run inside a step directory, `../scripts/` for equilibration. -/
def mdInputSrc (num : Nat) : List String :=
  if num = 0 then ["..", "..", "scripts", mdInputName num]
  else ["..", "scripts", mdInputName num]

/-- The propagation target of `md num`: `../init.lmps` for the perturbation run,
`../temp.lmps` for equilibration. -/
def mdOutDst (num : Nat) : List String :=
  if num = 0 then ["..", "init.lmps"] else ["..", "temp.lmps"]

def md (cfg : Cfg) (orc : Oracle) (num : Nat) (w : World) : Except Err World :=
  match copyFile (mdInputSrc num) [mdInputName num] w with
  | Except.error e => Except.error e
  | Except.ok w1 =>
    let wrote := orc.mdTool w1.mdCalls
    let w2 : World := { w1 with mdCalls := w1.mdCalls + 1,
                                mdLog := w1.mdLog ++ [(w1.bonds, num)] }
    let w3 := addFile (resolvePath w2.cwd ["out"]) w2
    let w4 := addFileIf wrote (resolvePath w3.cwd ["md.lmps"]) w3
    if resolvePath w4.cwd ["md.lmps"] ∈ w4.files then
      match copyFile ["md.lmps"] (mdOutDst num) w4 with
      | Except.error e => Except.error e
      | Except.ok w5 =>
        let w6 : World := { w5 with cwd := w5.cwd.dropLast }
        if cfg.keep = 0 then
          if num = 0 then Except.ok (globRmtree "md_" w6)
          else Except.ok (globRmtree "step_" w6)
        else Except.ok w6
    else err_exit "LAMMPS molecular dynamics did not complete properly."

/-- The `while (1)` retry loop of `polym_step`, entered with a given value of the
`attempts` counter.  Each pass invokes the topology tool (exit 0 = bond made,
checked for its `data.lmps` output; exit 3 = no pair, retried after a
perturbation MD unless `attempts > md_max`; anything else fatal).  On
exhaustion: `bonds -= 1`, `os.chdir('..')`, cleanup, return 1. -/
def polym_step_from (cfg : Cfg) (orc : Oracle) (attempts : Nat) (w : World) :
    Except Err (Nat × World) :=
  let r := orc.stepTool w.stepCalls
  let w0 : World := { w with stepCalls := w.stepCalls + 1 }
  let w1 := addFileIf r.wrote (resolvePath w0.cwd ["data.lmps"]) w0
  if r.code = 0 then
    if resolvePath w1.cwd ["data.lmps"] ∈ w1.files then Except.ok (0, w1)
    else err_exit "Polymerization step script did not complete properly."
  else if r.code = 3 then
    if h : cfg.md_max < (attempts : Int) then
      let w2 : World := { w1 with aborted := some w1.bonds, bonds := w1.bonds - 1,
                                  decrements := w1.decrements + 1,
                                  cwd := w1.cwd.dropLast }
      if cfg.keep = 0 then Except.ok (1, globRmtree "step_" w2)
      else Except.ok (1, w2)
    else
      match setup_md attempts w1 with
      | Except.error e => Except.error e
      | Except.ok w2 =>
        match md cfg orc 0 w2 with
        | Except.error e => Except.error e
        | Except.ok w3 => polym_step_from cfg orc (attempts + 1) w3
  else err_exit "Polymerization step script did not complete properly."
termination_by (cfg.md_max + 1 - (attempts : Int)).toNat
decreasing_by
  simp_wf
  omega

/-- `polym_step`: the attempt counter starts at 1. -/
def polym_step (cfg : Cfg) (orc : Oracle) (w : World) : Except Err (Nat × World) :=
  polym_step_from cfg orc 1 w

/-- `polym_init`: run the initialization conversion tool if configured, else
plain-copy `data.lmps` to `temp.lmps`.  In the copy branch the source script
then evaluates `code != 0` although the local `code` was never assigned,
raising an uncaught NameError. -/
def polym_init (cfg : Cfg) (orc : Oracle) (w : World) : Except Err World :=
  if cfg.script_init then
    let r := orc.initTool
    let w1 := addFileIf r.wrote (resolvePath w.cwd ["temp.lmps"]) w
    if r.code ≠ 0 ∨ resolvePath w1.cwd ["temp.lmps"] ∉ w1.files then
      err_exit "Polymerization initialization script did not complete properly."
    else Except.ok w1
  else
    match copyFile ["data.lmps"] ["temp.lmps"] w with
    | Except.error e => Except.error e
    | Except.ok _ => Except.error (Err.pyError "NameError: name code is not defined")

/-- `polym_final`: run the finalization conversion tool if configured (then
remove `temp.lmps`), else plain-copy `temp.lmps` to `final.lmps` — where the
source script again evaluates the unassigned local `code`, raising an uncaught
NameError before reaching `os.remove`. -/
def polym_final (cfg : Cfg) (orc : Oracle) (w : World) : Except Err World :=
  let wf : World := { w with finalRuns := w.finalRuns + 1 }
  if cfg.script_final then
    let r := orc.finalTool
    let w1 := addFileIf r.wrote (resolvePath wf.cwd ["final.lmps"]) wf
    if r.code ≠ 0 ∨ resolvePath w1.cwd ["final.lmps"] ∉ w1.files then
      err_exit "Polymerization finalization script did not complete properly."
    else removeFile ["temp.lmps"] w1
  else
    match copyFile ["temp.lmps"] ["final.lmps"] wf with
    | Except.error e => Except.error e
    | Except.ok _ => Except.error (Err.pyError "NameError: name code is not defined")

/-- One iteration of the main `while (bonds < bonds_tot)` loop, entered when the
condition holds: `bonds += 1`, `setup_step`, `polym_step` (break on 1), `em`,
break when `bonds == bonds_tot`, and the periodic molecular-dynamics cycle
(`bonds % bonds_cyc == 0` selects it, `(bonds / bonds_cyc) % md_cyc == 0`
selects type 2 over type 1; a zero divisor would raise ZeroDivisionError).
Returns `(false, w)` when the loop breaks, `(true, w)` when it continues. -/
def loop_body (cfg : Cfg) (orc : Oracle) (w : World) : Except Err (Bool × World) :=
  match setup_step { w with bonds := w.bonds + 1 } with
  | Except.error e => Except.error e
  | Except.ok w1 =>
    match polym_step cfg orc w1 with
    | Except.error e => Except.error e
    | Except.ok (code, w2) =>
      if code = 1 then Except.ok (false, w2)
      else
        match em cfg orc w2 with
        | Except.error e => Except.error e
        | Except.ok w3 =>
          if w3.bonds = cfg.bonds_tot then Except.ok (false, w3)
          else if cfg.bonds_cyc = 0 then
            Except.error (Err.pyError "ZeroDivisionError")
          else if Int.emod w3.bonds cfg.bonds_cyc = 0 then
            match setup_md 0 w3 with
            | Except.error e => Except.error e
            | Except.ok w4 =>
              if cfg.md_cyc = 0 then
                Except.error (Err.pyError "ZeroDivisionError")
              else if Int.emod (Int.ediv w3.bonds cfg.bonds_cyc) cfg.md_cyc = 0 then
                match md cfg orc 2 w4 with
                | Except.error e => Except.error e
                | Except.ok w5 => Except.ok (true, w5)
              else
                match md cfg orc 1 w4 with
                | Except.error e => Except.error e
                | Except.ok w5 => Except.ok (true, w5)
          else Except.ok (true, w3)

/-- The main `while (bonds < bonds_tot)` loop of `polym_loop`. -/
def polym_loop_aux (cfg : Cfg) (orc : Oracle) (w : World) : Except Err World :=
  if h : w.bonds < cfg.bonds_tot then
    match hb : loop_body cfg orc w with
    | Except.error e => Except.error e
    | Except.ok (false, w1) => Except.ok w1
    | Except.ok (true, w1) => polym_loop_aux cfg orc w1
  else Except.ok w
termination_by (cfg.bonds_tot - w.bonds).toNat
decreasing_by
  simp_wf
  have hproj : ∀ (b : Bool) (p : FsPath) (v : World), (addFileIf b p v).bonds = v.bonds := by
    intro b p v
    unfold addFileIf addFile
    split <;> rfl
  have hcopy : ∀ (s d : List String) (v v' : World),
      copyFile s d v = Except.ok v' → v'.bonds = v.bonds := by
    intro s d v v' hv
    unfold copyFile at hv
    split at hv
    · cases hv; simp [addFile]
    · cases hv
  have hsetup : ∀ (v v' : World), setup_step v = Except.ok v' → v'.bonds = v.bonds := by
    intro v v' hv
    unfold setup_step err_exit copyFile at hv
    simp only [] at hv
    repeat' split at hv
    all_goals (cases hv <;> simp [addFile])
  have hsm : ∀ (n : Nat) (v v' : World), setup_md n v = Except.ok v' → v'.bonds = v.bonds := by
    intro n v v' hv
    unfold setup_md err_exit copyFile at hv
    simp only [] at hv
    repeat' split at hv
    all_goals (cases hv <;> simp [addFile])
  have hem : ∀ (v v' : World), em cfg orc v = Except.ok v' → v'.bonds = v.bonds := by
    intro v v' hv
    unfold em err_exit at hv
    simp only [] at hv
    split at hv
    · cases hv
    next s1 heq1 =>
      have e1 := hcopy _ _ _ _ heq1
      split at hv
      · split at hv
        · cases hv
        next s5 heq5 =>
          have e5 := hcopy _ _ _ _ heq5
          split at hv <;>
            (cases hv; exact ((e5.trans (hproj _ _ _)).trans e1))
      · cases hv
  have hmdp : ∀ (n : Nat) (v v' : World), md cfg orc n v = Except.ok v' → v'.bonds = v.bonds := by
    intro n v v' hv
    unfold md err_exit at hv
    simp only [] at hv
    split at hv
    · cases hv
    next s1 heq1 =>
      have e1 := hcopy _ _ _ _ heq1
      split at hv
      · split at hv
        · cases hv
        next s5 heq5 =>
          have e5 := hcopy _ _ _ _ heq5
          split at hv
          · split at hv <;>
              (cases hv; exact ((e5.trans (hproj _ _ _)).trans e1))
          · cases hv; exact ((e5.trans (hproj _ _ _)).trans e1)
      · cases hv
  have hcode : ∀ (n a : Nat) (v : World) (c : Nat) (v' : World),
      (cfg.md_max + 1 - (a : Int)).toNat = n →
      polym_step_from cfg orc a v = Except.ok (c, v') → c = 0 ∨ c = 1 := by
    intro n
    induction n with
    | zero =>
      intro a v c v' hn hv
      unfold polym_step_from err_exit at hv
      simp only [] at hv
      split at hv
      · split at hv
        · cases hv; left; rfl
        · cases hv
      · split at hv
        · split at hv
          · split at hv <;> (cases hv; right; rfl)
          · split at hv
            · cases hv
            · split at hv
              · cases hv
              · omega
        · cases hv
    | succ n ih =>
      intro a v c v' hn hv
      unfold polym_step_from err_exit at hv
      simp only [] at hv
      split at hv
      · split at hv
        · cases hv; left; rfl
        · cases hv
      · split at hv
        · split at hv
          · split at hv <;> (cases hv; right; rfl)
          · split at hv
            · cases hv
            · split at hv
              · cases hv
              · exact ih _ _ _ _ (by omega) hv
        · cases hv
  have hps : ∀ (n a : Nat) (v : World) (c : Nat) (v' : World),
      (cfg.md_max + 1 - (a : Int)).toNat = n →
      polym_step_from cfg orc a v = Except.ok (c, v') → c = 0 → v'.bonds = v.bonds := by
    intro n
    induction n with
    | zero =>
      intro a v c v' hn hv hc
      unfold polym_step_from err_exit at hv
      simp only [] at hv
      split at hv
      · split at hv
        · cases hv; exact hproj _ _ _
        · cases hv
      · split at hv
        · split at hv
          · split at hv <;> (cases hv; omega)
          · split at hv
            · cases hv
            · split at hv
              · cases hv
              · omega
        · cases hv
    | succ n ih =>
      intro a v c v' hn hv hc
      unfold polym_step_from err_exit at hv
      simp only [] at hv
      split at hv
      · split at hv
        · cases hv; exact hproj _ _ _
        · cases hv
      · split at hv
        · split at hv
          · split at hv <;> (cases hv; omega)
          · split at hv
            · cases hv
            next s2 heq2 =>
              split at hv
              · cases hv
              next s3 heq3 =>
                have e2 := hsm _ _ _ heq2
                have e3 := hmdp _ _ _ heq3
                have e4 := ih _ _ _ _ (by omega) hv hc
                exact (((e4.trans e3).trans e2).trans (hproj _ _ _))
        · cases hv
  have hbonds : w1.bonds = w.bonds + 1 := by
    unfold loop_body polym_step at hb
    split at hb
    · cases hb
    next s1 heq1 =>
      have e1 := hsetup _ _ heq1
      split at hb
      · cases hb
      next code s2 heq2 =>
        have ec := hcode _ _ _ _ _ rfl heq2
        split at hb
        · cases hb
        next hc1 =>
          have e2 : s2.bonds = s1.bonds :=
            hps _ _ _ _ _ rfl heq2 (ec.resolve_right hc1)
          split at hb
          · cases hb
          next s3 heq3 =>
            have e3 := hem _ _ heq3
            split at hb
            · cases hb
            · split at hb
              · cases hb
              · split at hb
                · split at hb
                  · cases hb
                  next s4 heq4 =>
                    have e4 := hsm _ _ _ heq4
                    split at hb
                    · cases hb
                    · split at hb
                      · split at hb
                        · cases hb
                        next s5 heq5 =>
                          cases hb
                          have e5 := hmdp _ _ _ heq5
                          simp_all
                      · split at hb
                        · cases hb
                        next s5 heq5 =>
                          cases hb
                          have e5 := hmdp _ _ _ heq5
                          simp_all
                · cases hb
                  simp_all
  omega

/-- `polym_loop`: initialization, step 0 (relaxation only), the main loop,
then finalization (which runs both after a completed loop and after an
exhaustion abort). -/
def polym_loop (cfg : Cfg) (orc : Oracle) (w : World) : Except Err World :=
  match polym_init cfg orc w with
  | Except.error e => Except.error e
  | Except.ok w1 =>
    match setup_step w1 with
    | Except.error e => Except.error e
    | Except.ok w2 =>
      match em cfg orc w2 with
      | Except.error e => Except.error e
      | Except.ok w3 =>
        match polym_loop_aux cfg orc w3 with
        | Except.error e => Except.error e
        | Except.ok w4 => polym_final cfg orc w4

/-- `print_footer` prints the summary; computing the completion percentage
divides by `bonds_tot`, raising ZeroDivisionError when it is zero. -/
def print_footer (cfg : Cfg) (w : World) : Except Err World :=
  if cfg.bonds_tot = 0 then Except.error (Err.pyError "ZeroDivisionError")
  else Except.ok w

/-- The workspace at launch: the starting structure `data.lmps`, the type map
`types.txt`, and the `scripts` directory holding the input scripts that the
controller copies into stage directories.  `bonds` starts at 0. -/
def initWorld : World :=
  { bonds := 0
    cwd := []
    dirs := [["scripts"]]
    files := [["data.lmps"], ["types.txt"],
              ["scripts", "polym.in"], ["scripts", "min.in"],
              ["scripts", "md0.in"], ["scripts", "md1.in"], ["scripts", "md2.in"]]
    stepCalls := 0
    emCalls := 0
    mdCalls := 0
    created := []
    aborted := none
    decrements := 0
    finalRuns := 0
    mdLog := [] }

/-- `main`: header (pure printing), `polym_loop` from the launch workspace,
footer. -/
def runProgram (cfg : Cfg) (orc : Oracle) : Except Err World :=
  match polym_loop cfg orc initWorld with
  | Except.error e => Except.error e
  | Except.ok w => print_footer cfg w

/-- The process exit status: 0 on a normal return, 1 for `err_exit`
(`sys.exit(1)`) and for an uncaught Python exception. -/
def exitStatus (cfg : Cfg) (orc : Oracle) : Int :=
  match runProgram cfg orc with
  | Except.ok _ => 0
  | Except.error _ => 1

/-- The parameter values set in the script's user-setup section. -/
def defaultCfg : Cfg :=
  { bonds_tot := 16
    bonds_cyc := 5
    md_cyc := 3
    md_max := 100
    keep := 0
    script_init := true
    script_final := true }

/-- An oracle on which every external invocation succeeds and writes its
output artifact. -/
def orcAllOk : Oracle :=
  { stepTool := fun _ => { code := 0, wrote := true }
    initTool := { code := 0, wrote := true }
    finalTool := { code := 0, wrote := true }
    emTool := fun _ => true
    mdTool := fun _ => true }

/-- A configuration with target 1 and maximum 0 bond attempts, used with
`orcNoPair` to exercise the exhaustion/rollback path. -/
def cfgAbort : Cfg :=
  { bonds_tot := 1
    bonds_cyc := 5
    md_cyc := 3
    md_max := 0
    keep := 0
    script_init := true
    script_final := true }

/-- An oracle whose topology tool always reports "no pair found" (exit 3);
all other tools succeed. -/
def orcNoPair : Oracle :=
  { stepTool := fun _ => { code := 3, wrote := false }
    initTool := { code := 0, wrote := true }
    finalTool := { code := 0, wrote := true }
    emTool := fun _ => true
    mdTool := fun _ => true }

/-- The body of `polym_step_from`, abstracted over the retry continuation `k`
(used to build an executable fuel-indexed shadow proven equal to the
well-founded definition). -/
def polym_step_body (cfg : Cfg) (orc : Oracle) (attempts : Nat) (w : World)
    (k : World → Except Err (Nat × World)) : Except Err (Nat × World) :=
  let r := orc.stepTool w.stepCalls
  let w0 : World := { w with stepCalls := w.stepCalls + 1 }
  let w1 := addFileIf r.wrote (resolvePath w0.cwd ["data.lmps"]) w0
  if r.code = 0 then
    if resolvePath w1.cwd ["data.lmps"] ∈ w1.files then Except.ok (0, w1)
    else err_exit "Polymerization step script did not complete properly."
  else if r.code = 3 then
    if h : cfg.md_max < (attempts : Int) then
      let w2 : World := { w1 with aborted := some w1.bonds, bonds := w1.bonds - 1,
                                  decrements := w1.decrements + 1,
                                  cwd := w1.cwd.dropLast }
      if cfg.keep = 0 then Except.ok (1, globRmtree "step_" w2)
      else Except.ok (1, w2)
    else
      match setup_md attempts w1 with
      | Except.error e => Except.error e
      | Except.ok w2 =>
        match md cfg orc 0 w2 with
        | Except.error e => Except.error e
        | Except.ok w3 => k w3
  else err_exit "Polymerization step script did not complete properly."

/-- Fuel-indexed structural shadow of `polym_step_from` (the fuel sentinel is
unreachable at sufficient fuel: see `polym_step_fromF_eq`). -/
def polym_step_fromF (cfg : Cfg) (orc : Oracle) :
    Nat → Nat → World → Except Err (Nat × World)
  | 0, attempts, w =>
    polym_step_body cfg orc attempts w (fun _ => Except.error (Err.pyError "fuel"))
  | n + 1, attempts, w =>
    polym_step_body cfg orc attempts w (polym_step_fromF cfg orc n (attempts + 1))

/-- `polym_step` through the fuel-indexed shadow (fuel `md_max.toNat` is enough
for the counter to pass `md_max` starting from 1: see `polym_stepF_eq`). -/
def polym_stepF (cfg : Cfg) (orc : Oracle) (w : World) : Except Err (Nat × World) :=
  polym_step_fromF cfg orc cfg.md_max.toNat 1 w

/-- `loop_body` with the fuel-indexed shadow of `polym_step` (see
`loop_bodyF_eq`). -/
def loop_bodyF (cfg : Cfg) (orc : Oracle) (w : World) : Except Err (Bool × World) :=
  match setup_step { w with bonds := w.bonds + 1 } with
  | Except.error e => Except.error e
  | Except.ok w1 =>
    match polym_stepF cfg orc w1 with
    | Except.error e => Except.error e
    | Except.ok (code, w2) =>
      if code = 1 then Except.ok (false, w2)
      else
        match em cfg orc w2 with
        | Except.error e => Except.error e
        | Except.ok w3 =>
          if w3.bonds = cfg.bonds_tot then Except.ok (false, w3)
          else if cfg.bonds_cyc = 0 then
            Except.error (Err.pyError "ZeroDivisionError")
          else if Int.emod w3.bonds cfg.bonds_cyc = 0 then
            match setup_md 0 w3 with
            | Except.error e => Except.error e
            | Except.ok w4 =>
              if cfg.md_cyc = 0 then
                Except.error (Err.pyError "ZeroDivisionError")
              else if Int.emod (Int.ediv w3.bonds cfg.bonds_cyc) cfg.md_cyc = 0 then
                match md cfg orc 2 w4 with
                | Except.error e => Except.error e
                | Except.ok w5 => Except.ok (true, w5)
              else
                match md cfg orc 1 w4 with
                | Except.error e => Except.error e
                | Except.ok w5 => Except.ok (true, w5)
          else Except.ok (true, w3)

/-- The body of `polym_loop_aux`, abstracted over the continuation `k` taken on
a continuing iteration. -/
def loopAuxBody (cfg : Cfg) (orc : Oracle) (w : World)
    (k : World → Except Err World) : Except Err World :=
  if h : w.bonds < cfg.bonds_tot then
    match hb : loop_body cfg orc w with
    | Except.error e => Except.error e
    | Except.ok (false, w1) => Except.ok w1
    | Except.ok (true, w1) => k w1
  else Except.ok w

/-- `loopAuxBody` with the fuel-indexed loop body (see `loopAuxBodyF_eq`). -/
def loopAuxBodyF (cfg : Cfg) (orc : Oracle) (w : World)
    (k : World → Except Err World) : Except Err World :=
  if w.bonds < cfg.bonds_tot then
    match loop_bodyF cfg orc w with
    | Except.error e => Except.error e
    | Except.ok (false, w1) => Except.ok w1
    | Except.ok (true, w1) => k w1
  else Except.ok w

/-- Fuel-indexed structural shadow of `polym_loop_aux` (the fuel sentinel is
unreachable at sufficient fuel: see `polym_loop_auxF_eq`). -/
def polym_loop_auxF (cfg : Cfg) (orc : Oracle) : Nat → World → Except Err World
  | 0, w => loopAuxBodyF cfg orc w (fun _ => Except.error (Err.pyError "fuel"))
  | n + 1, w => loopAuxBodyF cfg orc w (polym_loop_auxF cfg orc n)

/-- `polym_loop` with the fuel-indexed loop shadow. -/
def polym_loopF (fuel : Nat) (cfg : Cfg) (orc : Oracle) (w : World) :
    Except Err World :=
  match polym_init cfg orc w with
  | Except.error e => Except.error e
  | Except.ok w1 =>
    match setup_step w1 with
    | Except.error e => Except.error e
    | Except.ok w2 =>
      match em cfg orc w2 with
      | Except.error e => Except.error e
      | Except.ok w3 =>
        match polym_loop_auxF cfg orc fuel w3 with
        | Except.error e => Except.error e
        | Except.ok w4 => polym_final cfg orc w4

/-- `runProgram` with the fuel-indexed loop shadow. -/
def runProgramF (fuel : Nat) (cfg : Cfg) (orc : Oracle) : Except Err World :=
  match polym_loopF fuel cfg orc initWorld with
  | Except.error e => Except.error e
  | Except.ok w => print_footer cfg w

/-- `cfgAbort` with the keep-intermediates flag set (`keep = 1`). -/
def cfgKeep : Cfg :=
  { bonds_tot := 1
    bonds_cyc := 5
    md_cyc := 3
    md_max := 0
    keep := 1
    script_init := true
    script_final := true }

/-- `defaultCfg` with the initialization conversion tool absent
(`script_init = 0` in the source). -/
def cfgNoInit : Cfg :=
  { defaultCfg with script_init := false }

/-- `defaultCfg` with the finalization conversion tool absent
(`script_final = 0` in the source). -/
def cfgNoFinal : Cfg :=
  { defaultCfg with script_final := false }

/-- The launch workspace right after `temp.lmps` has been produced. -/
def wTemp : World := addFile ["temp.lmps"] initWorld

/-- `wTemp` with one bond already made. -/
def wTemp1 : World := { wTemp with bonds := 1 }

/-- A launch workspace in which the name of the first stage directory is
already taken. -/
def wColl : World := { initWorld with dirs := [["step_000"], ["scripts"]] }

/-- The result of `polym_step cfgAbort orcNoPair initWorld`: the tool reports
no candidate pair and the attempt counter 1 already exceeds `md_max = 0`, so
exhaustion strikes immediately: `bonds` is decremented and the cursor pops. -/
def wAbortStep : World :=
  { initWorld with bonds := -1, stepCalls := 1, aborted := some 0,
                   decrements := 1 }

/-- The final workspace of the exhaustion run `runProgram cfgAbort orcNoPair`:
the first bond attempt aborts at bond index 1, yet finalization ran and the
created stage directories are gone (`keep = 0`). -/
def wAbort : World :=
  { bonds := 0
    cwd := []
    dirs := [["scripts"]]
    files := [["final.lmps"], ["data.lmps"], ["types.txt"],
              ["scripts", "polym.in"], ["scripts", "min.in"],
              ["scripts", "md0.in"], ["scripts", "md1.in"], ["scripts", "md2.in"]]
    stepCalls := 1
    emCalls := 1
    mdCalls := 0
    created := [["step_000"], ["step_001"]]
    aborted := some 1
    decrements := 1
    finalRuns := 1
    mdLog := [] }

/-- The final workspace of the exhaustion run `runProgram cfgKeep orcNoPair`:
the same abort, but with `keep = 1` every created stage directory persists. -/
def wKeep : World :=
  { bonds := 0
    cwd := []
    dirs := [["step_001"], ["step_000"], ["scripts"]]
    files := [["final.lmps"], ["step_001", "init.lmps"], ["step_000", "min.lmps"],
              ["step_000", "out"], ["step_000", "min.in"], ["step_000", "data.lmps"],
              ["data.lmps"], ["types.txt"],
              ["scripts", "polym.in"], ["scripts", "min.in"],
              ["scripts", "md0.in"], ["scripts", "md1.in"], ["scripts", "md2.in"]]
    stepCalls := 1
    emCalls := 1
    mdCalls := 0
    created := [["step_000"], ["step_001"]]
    aborted := some 1
    decrements := 1
    finalRuns := 1
    mdLog := [] }

/-- The result of `setup_step wTemp` (bond count 0): the staged input is named
`data.lmps`. -/
def wStage0 : World :=
  { bonds := 0
    cwd := ["step_000"]
    dirs := [["step_000"], ["scripts"]]
    files := [["step_000", "data.lmps"], ["temp.lmps"], ["data.lmps"], ["types.txt"],
              ["scripts", "polym.in"], ["scripts", "min.in"],
              ["scripts", "md0.in"], ["scripts", "md1.in"], ["scripts", "md2.in"]]
    stepCalls := 0
    emCalls := 0
    mdCalls := 0
    created := [["step_000"]]
    aborted := none
    decrements := 0
    finalRuns := 0
    mdLog := [] }

/-- The result of `setup_step wTemp1` (bond count 1): the staged input is named
`init.lmps`. -/
def wStage1 : World :=
  { bonds := 1
    cwd := ["step_001"]
    dirs := [["step_001"], ["scripts"]]
    files := [["step_001", "init.lmps"], ["temp.lmps"], ["data.lmps"], ["types.txt"],
              ["scripts", "polym.in"], ["scripts", "min.in"],
              ["scripts", "md0.in"], ["scripts", "md1.in"], ["scripts", "md2.in"]]
    stepCalls := 0
    emCalls := 0
    mdCalls := 0
    created := [["step_001"]]
    aborted := none
    decrements := 0
    finalRuns := 0
    mdLog := [] }

/-! ### Projection and path lemmas -/

@[simp] theorem addFile_bonds (p : FsPath) (w : World) : (addFile p w).bonds = w.bonds := rfl

@[simp] theorem addFile_cwd (p : FsPath) (w : World) : (addFile p w).cwd = w.cwd := rfl

@[simp] theorem addFile_dirs (p : FsPath) (w : World) : (addFile p w).dirs = w.dirs := rfl

@[simp] theorem addFile_created (p : FsPath) (w : World) : (addFile p w).created = w.created := rfl

@[simp] theorem addFile_aborted (p : FsPath) (w : World) : (addFile p w).aborted = w.aborted := rfl

@[simp] theorem addFile_decrements (p : FsPath) (w : World) : (addFile p w).decrements = w.decrements := rfl

@[simp] theorem addFile_finalRuns (p : FsPath) (w : World) : (addFile p w).finalRuns = w.finalRuns := rfl

@[simp] theorem addFile_stepCalls (p : FsPath) (w : World) : (addFile p w).stepCalls = w.stepCalls := rfl

@[simp] theorem addFile_emCalls (p : FsPath) (w : World) : (addFile p w).emCalls = w.emCalls := rfl

@[simp] theorem addFile_mdCalls (p : FsPath) (w : World) : (addFile p w).mdCalls = w.mdCalls := rfl

@[simp] theorem addFile_mdLog (p : FsPath) (w : World) : (addFile p w).mdLog = w.mdLog := rfl

theorem mem_addFile_files {q p : FsPath} {w : World} (h : q ∈ w.files) :
    q ∈ (addFile p w).files := by
  unfold addFile
  split
  · exact h
  · exact List.mem_cons_of_mem _ h

theorem mem_addFile_files_iff {q p : FsPath} {w : World} :
    q ∈ (addFile p w).files ↔ q = p ∨ q ∈ w.files := by
  unfold addFile
  split
  next hp =>
    constructor
    · exact Or.inr
    · rintro (rfl | hq)
      · exact hp
      · exact hq
  · simp [List.mem_cons]

@[simp] theorem addFileIf_bonds (b : Bool) (p : FsPath) (w : World) :
    (addFileIf b p w).bonds = w.bonds := by cases b <;> rfl

@[simp] theorem addFileIf_cwd (b : Bool) (p : FsPath) (w : World) :
    (addFileIf b p w).cwd = w.cwd := by cases b <;> rfl

@[simp] theorem addFileIf_dirs (b : Bool) (p : FsPath) (w : World) :
    (addFileIf b p w).dirs = w.dirs := by cases b <;> rfl

@[simp] theorem addFileIf_created (b : Bool) (p : FsPath) (w : World) :
    (addFileIf b p w).created = w.created := by cases b <;> rfl

@[simp] theorem addFileIf_aborted (b : Bool) (p : FsPath) (w : World) :
    (addFileIf b p w).aborted = w.aborted := by cases b <;> rfl

@[simp] theorem addFileIf_decrements (b : Bool) (p : FsPath) (w : World) :
    (addFileIf b p w).decrements = w.decrements := by cases b <;> rfl

@[simp] theorem addFileIf_finalRuns (b : Bool) (p : FsPath) (w : World) :
    (addFileIf b p w).finalRuns = w.finalRuns := by cases b <;> rfl

@[simp] theorem addFileIf_stepCalls (b : Bool) (p : FsPath) (w : World) :
    (addFileIf b p w).stepCalls = w.stepCalls := by cases b <;> rfl

@[simp] theorem addFileIf_emCalls (b : Bool) (p : FsPath) (w : World) :
    (addFileIf b p w).emCalls = w.emCalls := by cases b <;> rfl

@[simp] theorem addFileIf_mdCalls (b : Bool) (p : FsPath) (w : World) :
    (addFileIf b p w).mdCalls = w.mdCalls := by cases b <;> rfl

@[simp] theorem addFileIf_mdLog (b : Bool) (p : FsPath) (w : World) :
    (addFileIf b p w).mdLog = w.mdLog := by cases b <;> rfl

theorem mem_addFileIf_files {q : FsPath} {b : Bool} {p : FsPath} {w : World}
    (h : q ∈ w.files) : q ∈ (addFileIf b p w).files := by
  cases b
  · exact h
  · exact mem_addFile_files h

@[simp] theorem globRmtree_bonds (pre : String) (w : World) :
    (globRmtree pre w).bonds = w.bonds := rfl

@[simp] theorem globRmtree_cwd (pre : String) (w : World) :
    (globRmtree pre w).cwd = w.cwd := rfl

@[simp] theorem globRmtree_dirs (pre : String) (w : World) :
    (globRmtree pre w).dirs = w.dirs.filter (fun p => !underGlob w.cwd pre p) := rfl

@[simp] theorem globRmtree_created (pre : String) (w : World) :
    (globRmtree pre w).created = w.created := rfl

@[simp] theorem globRmtree_aborted (pre : String) (w : World) :
    (globRmtree pre w).aborted = w.aborted := rfl

@[simp] theorem globRmtree_decrements (pre : String) (w : World) :
    (globRmtree pre w).decrements = w.decrements := rfl

@[simp] theorem globRmtree_finalRuns (pre : String) (w : World) :
    (globRmtree pre w).finalRuns = w.finalRuns := rfl

@[simp] theorem globRmtree_stepCalls (pre : String) (w : World) :
    (globRmtree pre w).stepCalls = w.stepCalls := rfl

@[simp] theorem globRmtree_emCalls (pre : String) (w : World) :
    (globRmtree pre w).emCalls = w.emCalls := rfl

@[simp] theorem globRmtree_mdCalls (pre : String) (w : World) :
    (globRmtree pre w).mdCalls = w.mdCalls := rfl

@[simp] theorem globRmtree_mdLog (pre : String) (w : World) :
    (globRmtree pre w).mdLog = w.mdLog := rfl

theorem strStarts_append (p x : String) : strStarts p (p ++ x) = true := by
  unfold strStarts
  rw [String.data_append, List.isPrefixOf_iff_prefix]
  exact List.prefix_append _ _

theorem step_name_ne_up (x : String) : ("step_" ++ x) ≠ ".." := by
  intro h
  have h2 : ("step_" ++ x).data = (".." : String).data := by rw [h]
  rw [String.data_append] at h2
  have e1 : ("step_" : String).data = ['s', 't', 'e', 'p', '_'] := rfl
  have e2 : ((".." : String)).data = ['.', '.'] := rfl
  rw [e1, e2] at h2
  have h3 := congrArg List.length h2
  simp only [List.length_append, List.length_cons, List.length_nil] at h3
  omega

theorem md_name_ne_up (x : String) : ("md_" ++ x) ≠ ".." := by
  intro h
  have h2 : ("md_" ++ x).data = (".." : String).data := by rw [h]
  rw [String.data_append] at h2
  have e1 : ("md_" : String).data = ['m', 'd', '_'] := rfl
  have e2 : ((".." : String)).data = ['.', '.'] := rfl
  rw [e1, e2] at h2
  have h3 := congrArg List.length h2
  simp only [List.length_append, List.length_cons, List.length_nil] at h3
  omega

@[simp] theorem resolvePath_nil (cwd : FsPath) : resolvePath cwd [] = cwd := rfl

theorem resolvePath_single {n : String} (cwd : FsPath) (h : n ≠ "..") :
    resolvePath cwd [n] = cwd ++ [n] := by
  simp [resolvePath, h]

theorem resolvePath_up_single {n : String} (cwd : FsPath) (h : n ≠ "..") :
    resolvePath cwd ["..", n] = cwd.dropLast ++ [n] := by
  simp [resolvePath, h]

@[simp] theorem underGlob_nil_nil (pre : String) : underGlob [] pre [] = false := rfl

@[simp] theorem underGlob_nil_cons (pre n : String) (rest : FsPath) :
    underGlob [] pre (n :: rest) = strStarts pre n := by
  simp [underGlob]

/-! ### Characterization of the filesystem operations -/

theorem copyFile_eq_ok {s d : List String} {w w' : World}
    (h : copyFile s d w = Except.ok w') :
    w' = addFile (resolvePath w.cwd d) w ∧ resolvePath w.cwd s ∈ w.files := by
  unfold copyFile at h
  split at h
  next hs => cases h; exact ⟨rfl, hs⟩
  · cases h

theorem removeFile_eq_ok {p : List String} {w w' : World}
    (h : removeFile p w = Except.ok w') :
    w' = { w with files :=
      w.files.filter (fun q => decide (q ≠ resolvePath w.cwd p)) } ∧
      resolvePath w.cwd p ∈ w.files := by
  unfold removeFile at h
  split at h
  next hs => cases h; exact ⟨rfl, hs⟩
  · cases h

theorem polym_step_from_eq_body (cfg : Cfg) (orc : Oracle) (a : Nat) (w : World) :
    polym_step_from cfg orc a w =
      polym_step_body cfg orc a w (polym_step_from cfg orc (a + 1)) := by
  rw [polym_step_from.eq_def]
  rfl

theorem polym_loop_aux_eq_body (cfg : Cfg) (orc : Oracle) (w : World) :
    polym_loop_aux cfg orc w = loopAuxBody cfg orc w (polym_loop_aux cfg orc) := by
  rw [polym_loop_aux.eq_def]
  rfl

/-! ### Characterization of the staging operations -/

theorem setup_step_ok {w w' : World} (h : setup_step w = Except.ok w') :
    w'.bonds = w.bonds ∧
    w'.cwd = w.cwd ++ ["step_" ++ pad3 w.bonds] ∧
    w'.dirs = (w.cwd ++ ["step_" ++ pad3 w.bonds]) :: w.dirs ∧
    w'.created = w.created ++ [w.cwd ++ ["step_" ++ pad3 w.bonds]] ∧
    w'.aborted = w.aborted ∧ w'.decrements = w.decrements ∧
    w'.finalRuns = w.finalRuns ∧ w'.stepCalls = w.stepCalls ∧
    w'.emCalls = w.emCalls ∧ w'.mdCalls = w.mdCalls ∧ w'.mdLog = w.mdLog := by
  unfold setup_step err_exit at h
  simp only [] at h
  rw [resolvePath_single _ (step_name_ne_up _)] at h
  split at h
  · cases h
  · split at h <;>
      (rcases copyFile_eq_ok h with ⟨rfl, _⟩; simp)

theorem setup_md_ok {num : Nat} {w w' : World} (h : setup_md num w = Except.ok w') :
    ∃ nm, (num = 0 → nm = "step_" ++ pad3 w.bonds ++ "_md") ∧
      w'.cwd = w.cwd ++ [nm] ∧
      w'.dirs = (w.cwd ++ [nm]) :: w.dirs ∧
      w'.created = w.created ++ [w.cwd ++ [nm]] ∧
      w'.bonds = w.bonds ∧ w'.aborted = w.aborted ∧ w'.decrements = w.decrements ∧
      w'.finalRuns = w.finalRuns ∧ w'.stepCalls = w.stepCalls ∧
      w'.emCalls = w.emCalls ∧ w'.mdLog = w.mdLog := by
  unfold setup_md err_exit at h
  simp only [] at h
  by_cases hnum : num = 0
  · simp only [if_pos hnum] at h
    rw [resolvePath_single _ (by rw [String.append_assoc]; exact step_name_ne_up _)] at h
    split at h
    · cases h
    · rcases copyFile_eq_ok h with ⟨rfl, _⟩
      exact ⟨"step_" ++ pad3 w.bonds ++ "_md", fun _ => rfl, by simp⟩
  · simp only [if_neg hnum] at h
    rw [resolvePath_single _ (md_name_ne_up _)] at h
    split at h
    · cases h
    · rcases copyFile_eq_ok h with ⟨rfl, _⟩
      exact ⟨"md_" ++ pad3 (num : Int), fun h0 => absurd h0 hnum, by simp⟩

theorem em_ok {cfg : Cfg} {orc : Oracle} {w w' : World}
    (h : em cfg orc w = Except.ok w') :
    w'.bonds = w.bonds ∧ w'.cwd = w.cwd.dropLast ∧
    w'.created = w.created ∧ w'.aborted = w.aborted ∧
    w'.decrements = w.decrements ∧ w'.finalRuns = w.finalRuns ∧
    w'.stepCalls = w.stepCalls ∧ w'.mdLog = w.mdLog ∧
    (cfg.keep ≠ 0 → w'.dirs = w.dirs) ∧
    (cfg.keep = 0 →
      w'.dirs = w.dirs.filter (fun p => !underGlob w.cwd.dropLast "step_" p)) := by
  unfold em err_exit at h
  simp only [] at h
  split at h
  · cases h
  next s1 heq1 =>
    rcases copyFile_eq_ok heq1 with ⟨rfl, _⟩
    split at h
    · split at h
      · cases h
      next s5 heq5 =>
        rcases copyFile_eq_ok heq5 with ⟨rfl, _⟩
        split at h <;> (cases h; simp_all)
    · cases h

theorem md_ok {cfg : Cfg} {orc : Oracle} {num : Nat} {w w' : World}
    (h : md cfg orc num w = Except.ok w') :
    w'.bonds = w.bonds ∧ w'.cwd = w.cwd.dropLast ∧ w'.created = w.created ∧
    w'.aborted = w.aborted ∧ w'.decrements = w.decrements ∧
    w'.finalRuns = w.finalRuns ∧ w'.stepCalls = w.stepCalls ∧
    w'.mdLog = w.mdLog ++ [(w.bonds, num)] ∧
    (cfg.keep ≠ 0 → w'.dirs = w.dirs) ∧
    (cfg.keep = 0 → num = 0 →
      w'.dirs = w.dirs.filter (fun p => !underGlob w.cwd.dropLast "md_" p)) ∧
    (cfg.keep = 0 → num ≠ 0 →
      w'.dirs = w.dirs.filter (fun p => !underGlob w.cwd.dropLast "step_" p)) := by
  unfold md err_exit at h
  simp only [] at h
  split at h
  · cases h
  next s1 heq1 =>
    rcases copyFile_eq_ok heq1 with ⟨rfl, _⟩
    split at h
    · split at h
      · cases h
      next s5 heq5 =>
        rcases copyFile_eq_ok heq5 with ⟨rfl, _⟩
        split at h
        · split at h <;> (cases h; simp_all)
        · cases h; simp_all
    · cases h

theorem polym_init_ok {cfg : Cfg} {orc : Oracle} {w w' : World}
    (h : polym_init cfg orc w = Except.ok w') :
    w'.bonds = w.bonds ∧ w'.cwd = w.cwd ∧ w'.dirs = w.dirs ∧
    w'.created = w.created ∧ w'.aborted = w.aborted ∧
    w'.decrements = w.decrements ∧ w'.finalRuns = w.finalRuns ∧
    w'.stepCalls = w.stepCalls ∧ w'.emCalls = w.emCalls ∧
    w'.mdCalls = w.mdCalls ∧ w'.mdLog = w.mdLog := by
  unfold polym_init err_exit at h
  simp only [] at h
  split at h
  · split at h
    · cases h
    · cases h; simp
  · split at h <;> cases h

theorem polym_final_ok {cfg : Cfg} {orc : Oracle} {w w' : World}
    (h : polym_final cfg orc w = Except.ok w') :
    w'.finalRuns = w.finalRuns + 1 ∧ w'.bonds = w.bonds ∧ w'.cwd = w.cwd ∧
    w'.dirs = w.dirs ∧ w'.created = w.created ∧ w'.aborted = w.aborted ∧
    w'.decrements = w.decrements ∧ w'.mdLog = w.mdLog ∧
    (w.cwd ++ ["final.lmps"]) ∈ w'.files ∧
    (∀ p, p ∈ w'.files → p ≠ w.cwd ++ ["temp.lmps"]) := by
  unfold polym_final err_exit at h
  simp only [] at h
  split at h
  · split at h
    · cases h
    next hok =>
      rcases removeFile_eq_ok h with ⟨rfl, _⟩
      rw [not_or, not_not, not_not] at hok
      rw [resolvePath_single _ (by decide)] at hok
      refine ⟨by simp, by simp, by simp, by simp, by simp, by simp, by simp, by simp, ?_, ?_⟩
      · simp only [List.mem_filter]
        refine ⟨by simpa using hok.2, ?_⟩
        rw [resolvePath_single _ (by decide)]
        simp
      · intro p hp
        simp only [List.mem_filter] at hp
        have := hp.2
        rw [resolvePath_single _ (by decide)] at this
        simpa using this
  · split at h <;> cases h

/-! ### Behaviour of one bond attempt (`polym_step_from`) -/

theorem polym_step_from_spec {cfg : Cfg} {orc : Oracle} :
    ∀ (n a : Nat) (w : World) (c : Nat) (w' : World),
      (cfg.md_max + 1 - (a : Int)).toNat = n →
      polym_step_from cfg orc a w = Except.ok (c, w') →
      (c = 0 ∨ c = 1) ∧
      w'.finalRuns = w.finalRuns ∧
      (∀ d, d ∈ w'.created → d ∈ w.created ∨ ∃ nm, d = w.cwd ++ [nm]) ∧
      (c = 0 → w'.bonds = w.bonds ∧ w'.cwd = w.cwd ∧ w'.aborted = w.aborted ∧
        w'.decrements = w.decrements) ∧
      (c = 1 → w'.aborted = some w.bonds ∧ w'.bonds = w.bonds - 1 ∧
        w'.cwd = w.cwd.dropLast ∧ w'.decrements = w.decrements + 1 ∧
        (cfg.keep = 0 →
          ∀ p, p ∈ w'.dirs → underGlob w.cwd.dropLast "step_" p = false)) ∧
      (cfg.keep ≠ 0 → (∀ p, p ∈ w.dirs → p ∈ w'.dirs) ∧
        (∀ d, d ∈ w'.created → d ∈ w.created ∨ d ∈ w'.dirs)) := by
  intro n
  induction n with
  | zero =>
    intro a w c w' hn hv
    rw [polym_step_from_eq_body] at hv
    unfold polym_step_body err_exit at hv
    simp only [] at hv
    split at hv
    · split at hv
      · cases hv
        refine ⟨Or.inl rfl, by simp, fun d hd => Or.inl (by simpa using hd),
          fun _ => ⟨by simp, by simp, by simp, by simp⟩, by omega,
          fun _ => ⟨fun p hp => by simpa using hp,
            fun d hd => Or.inl (by simpa using hd)⟩⟩
      · cases hv
    · split at hv
      · split at hv
        · split at hv <;> cases hv
          · refine ⟨Or.inr rfl, by simp, fun d hd => Or.inl (by simpa using hd),
              by omega, fun _ => ⟨by simp, by simp, by simp, by simp, ?_⟩, ?_⟩
            · intro _ p hp
              simp only [globRmtree_dirs, List.mem_filter] at hp
              have := hp.2
              simpa using this
            · intro hk
              exact absurd (by assumption) hk
          · refine ⟨Or.inr rfl, by simp, fun d hd => Or.inl (by simpa using hd),
              by omega, fun _ => ⟨by simp, by simp, by simp, by simp, ?_⟩, ?_⟩
            · intro hk0
              exact absurd hk0 (by assumption)
            · intro _
              exact ⟨fun p hp => by simpa using hp,
                fun d hd => Or.inl (by simpa using hd)⟩
        · split at hv
          · cases hv
          · split at hv
            · cases hv
            · omega
      · cases hv
  | succ n ih =>
    intro a w c w' hn hv
    rw [polym_step_from_eq_body] at hv
    unfold polym_step_body err_exit at hv
    simp only [] at hv
    split at hv
    · split at hv
      · cases hv
        refine ⟨Or.inl rfl, by simp, fun d hd => Or.inl (by simpa using hd),
          fun _ => ⟨by simp, by simp, by simp, by simp⟩, by omega,
          fun _ => ⟨fun p hp => by simpa using hp,
            fun d hd => Or.inl (by simpa using hd)⟩⟩
      · cases hv
    · split at hv
      · split at hv
        · split at hv <;> cases hv
          · refine ⟨Or.inr rfl, by simp, fun d hd => Or.inl (by simpa using hd),
              by omega, fun _ => ⟨by simp, by simp, by simp, by simp, ?_⟩, ?_⟩
            · intro _ p hp
              simp only [globRmtree_dirs, List.mem_filter] at hp
              have := hp.2
              simpa using this
            · intro hk
              exact absurd (by assumption) hk
          · refine ⟨Or.inr rfl, by simp, fun d hd => Or.inl (by simpa using hd),
              by omega, fun _ => ⟨by simp, by simp, by simp, by simp, ?_⟩, ?_⟩
            · intro hk0
              exact absurd hk0 (by assumption)
            · intro _
              exact ⟨fun p hp => by simpa using hp,
                fun d hd => Or.inl (by simpa using hd)⟩
        · split at hv
          · cases hv
          next s2 heq2 =>
            split at hv
            · cases hv
            next s3 heq3 =>
              obtain ⟨nm, _, e2cwd, e2dirs, e2created, e2bonds, e2ab, e2dec, e2fin,
                e2sc, e2em, e2log⟩ := setup_md_ok heq2
              obtain ⟨e3bonds, e3cwd, e3created, e3ab, e3dec, e3fin, e3sc, e3log,
                e3dirs1, e3dirs00, e3dirs0s⟩ := md_ok heq3
              obtain ⟨ih01, ihfin, ihcreated, ih0, ih1, ihkeep⟩ :=
                ih (a + 1) s3 c w' (by omega) hv
              have s3cwd : s3.cwd = w.cwd := by
                rw [e3cwd, e2cwd]; simp
              have s3bonds : s3.bonds = w.bonds := by
                rw [e3bonds, e2bonds]; simp
              have s3created : s3.created = w.created ++ [w.cwd ++ [nm]] := by
                rw [e3created, e2created]; simp
              have s3ab : s3.aborted = w.aborted := by
                rw [e3ab, e2ab]; simp
              have s3dec : s3.decrements = w.decrements := by
                rw [e3dec, e2dec]; simp
              have s3fin : s3.finalRuns = w.finalRuns := by
                rw [e3fin, e2fin]; simp
              refine ⟨ih01, by rw [ihfin, s3fin], ?_, ?_, ?_, ?_⟩
              · intro d hd
                rcases ihcreated d hd with hin | ⟨nm', hnm'⟩
                · rw [s3created] at hin
                  rcases List.mem_append.mp hin with hin2 | hin2
                  · exact Or.inl hin2
                  · exact Or.inr ⟨nm, (List.mem_singleton.mp hin2)⟩
                · exact Or.inr ⟨nm', by rw [hnm', s3cwd]⟩
              · intro hc
                obtain ⟨b1, b2, b3, b4⟩ := ih0 hc
                exact ⟨by rw [b1, s3bonds], by rw [b2, s3cwd],
                  by rw [b3, s3ab], by rw [b4, s3dec]⟩
              · intro hc
                obtain ⟨b1, b2, b3, b4, b5⟩ := ih1 hc
                refine ⟨by rw [b1, s3bonds], by rw [b2, s3bonds],
                  by rw [b3, s3cwd], by rw [b4, s3dec], ?_⟩
                intro hk p hp
                have := b5 hk p hp
                rwa [s3cwd] at this
              · intro hk
                obtain ⟨ihsup, ihcr⟩ := ihkeep hk
                have hsup : ∀ p, p ∈ w.dirs → p ∈ w'.dirs := by
                  intro p hp
                  apply ihsup
                  rw [e3dirs1 hk, e2dirs]
                  exact List.mem_cons_of_mem _ (by simpa using hp)
                refine ⟨hsup, ?_⟩
                intro d hd
                rcases ihcr d hd with hin | hin
                · rw [s3created] at hin
                  rcases List.mem_append.mp hin with hin2 | hin2
                  · exact Or.inl hin2
                  · refine Or.inr ?_
                    rw [List.mem_singleton.mp hin2]
                    apply ihsup
                    rw [e3dirs1 hk, e2dirs]
                    simp
                · exact Or.inr hin
      · cases hv

/-! ### The attempt bound of `polym_step` -/

theorem polym_step_from_calls {cfg : Cfg} {orc : Oracle} :
    ∀ (n a : Nat) (w : World) (c : Nat) (w' : World),
      (cfg.md_max + 1 - (a : Int)).toNat = n →
      1 ≤ a → (a : Int) ≤ cfg.md_max + 1 →
      polym_step_from cfg orc a w = Except.ok (c, w') →
      ((w'.stepCalls : Int) ≤ (w.stepCalls : Int) + (cfg.md_max + 2 - (a : Int))) ∧
      (c = 1 →
        (w'.stepCalls : Int) = (w.stepCalls : Int) + (cfg.md_max + 2 - (a : Int))) := by
  intro n
  induction n with
  | zero =>
    intro a w c w' hn ha hb hv
    rw [polym_step_from_eq_body] at hv
    unfold polym_step_body err_exit at hv
    simp only [] at hv
    split at hv
    · split at hv
      · cases hv
        refine ⟨by simp; omega, fun h01 => absurd h01 (by decide)⟩
      · cases hv
    · split at hv
      · split at hv
        next hgt =>
          split at hv <;> cases hv <;>
            refine ⟨by simp; omega, fun _ => by simp; omega⟩
        next hgt =>
          split at hv
          · cases hv
          · split at hv
            · cases hv
            · omega
      · cases hv
  | succ n ih =>
    intro a w c w' hn ha hb hv
    rw [polym_step_from_eq_body] at hv
    unfold polym_step_body err_exit at hv
    simp only [] at hv
    split at hv
    · split at hv
      · cases hv
        refine ⟨by simp; omega, fun h01 => absurd h01 (by decide)⟩
      · cases hv
    · split at hv
      · split at hv
        next hgt =>
          split at hv <;> cases hv <;>
            refine ⟨by simp; omega, fun _ => by simp; omega⟩
        next hgt =>
          split at hv
          · cases hv
          next s2 heq2 =>
            split at hv
            · cases hv
            next s3 heq3 =>
              obtain ⟨nm, _, e2cwd, e2dirs, e2created, e2bonds, e2ab, e2dec, e2fin,
                e2sc, e2em, e2log⟩ := setup_md_ok heq2
              obtain ⟨e3bonds, e3cwd, e3created, e3ab, e3dec, e3fin, e3sc, e3log,
                e3dirs1, e3dirs00, e3dirs0s⟩ := md_ok heq3
              have s3sc : s3.stepCalls = w.stepCalls + 1 := by
                rw [e3sc, e2sc]; simp
              obtain ⟨ihle, iheq⟩ :=
                ih (a + 1) s3 c w' (by omega) (by omega) (by omega) hv
              rw [s3sc] at ihle iheq
              constructor
              · push_cast at ihle ⊢
                omega
              · intro hc
                have := iheq hc
                push_cast at this ⊢
                omega
      · cases hv

/-! ### Behaviour of one main-loop iteration -/

theorem loop_body_bonds {cfg : Cfg} {orc : Oracle} {w : World} {b : Bool}
    {w1 : World} (h : loop_body cfg orc w = Except.ok (b, w1)) :
    b = true → w1.bonds = w.bonds + 1 := by
  unfold loop_body at h
  split at h
  · cases h
  next s1 heq1 =>
    have e1 := (setup_step_ok heq1).1
    split at h
    · cases h
    next code s2 heq2 =>
      obtain ⟨c01, _, _, hc0, _, _⟩ :=
        polym_step_from_spec _ 1 s1 code s2 rfl heq2
      split at h
      · cases h
        intro hft
        cases hft
      next hcode =>
        have e2 := (hc0 (c01.resolve_right hcode)).1
        split at h
        · cases h
        next s3 heq3 =>
          have e3 := (em_ok heq3).1
          split at h
          · cases h
            intro hft
            cases hft
          · split at h
            · cases h
            · split at h
              · split at h
                · cases h
                next s4 heq4 =>
                  obtain ⟨nm, _, _, _, _, e4bonds, _⟩ := setup_md_ok heq4
                  split at h
                  · cases h
                  · split at h
                    · split at h
                      · cases h
                      next s5 heq5 =>
                        cases h
                        have e5 := (md_ok heq5).1
                        intro _
                        rw [e5, e4bonds, e3, e2, e1]
                    · split at h
                      · cases h
                      next s5 heq5 =>
                        cases h
                        have e5 := (md_ok heq5).1
                        intro _
                        rw [e5, e4bonds, e3, e2, e1]
              · cases h
                intro _
                rw [e3, e2, e1]

/-! ### Fuel-shadow equivalence -/

theorem polym_step_body_congr {cfg : Cfg} {orc : Oracle} {a : Nat} {w : World}
    {k k' : World → Except Err (Nat × World)} (hk : ∀ v, k v = k' v) :
    polym_step_body cfg orc a w k = polym_step_body cfg orc a w k' := by
  unfold polym_step_body
  simp only []
  repeat' split
  all_goals first
    | rfl
    | exact hk _

theorem polym_step_body_dead {cfg : Cfg} {orc : Oracle} {a : Nat} {w : World}
    {k k' : World → Except Err (Nat × World)} (ha : cfg.md_max < (a : Int)) :
    polym_step_body cfg orc a w k = polym_step_body cfg orc a w k' := by
  unfold polym_step_body
  simp only []
  repeat' split
  all_goals first
    | rfl
    | exact absurd ha (by assumption)

theorem polym_step_fromF_eq {cfg : Cfg} {orc : Oracle} :
    ∀ (n a : Nat) (w : World), (cfg.md_max + 1 - (a : Int)).toNat ≤ n →
      polym_step_fromF cfg orc n a w = polym_step_from cfg orc a w := by
  intro n
  induction n with
  | zero =>
    intro a w hn
    have ha : cfg.md_max < (a : Int) := by omega
    rw [polym_step_from_eq_body]
    show polym_step_body cfg orc a w _ = _
    exact polym_step_body_dead ha
  | succ n ih =>
    intro a w hn
    rw [polym_step_from_eq_body]
    show polym_step_body cfg orc a w _ = _
    exact polym_step_body_congr (fun v => ih (a + 1) v (by omega))

theorem polym_stepF_eq {cfg : Cfg} {orc : Oracle} {w : World} :
    polym_stepF cfg orc w = polym_step cfg orc w := by
  unfold polym_stepF polym_step
  exact polym_step_fromF_eq _ 1 w (by omega)

theorem loop_bodyF_eq {cfg : Cfg} {orc : Oracle} {w : World} :
    loop_bodyF cfg orc w = loop_body cfg orc w := by
  unfold loop_bodyF loop_body
  simp only [polym_stepF_eq]

theorem loopAuxBodyF_eq {cfg : Cfg} {orc : Oracle} {w : World}
    {k : World → Except Err World} :
    loopAuxBodyF cfg orc w k = loopAuxBody cfg orc w k := by
  unfold loopAuxBodyF loopAuxBody
  rw [loop_bodyF_eq]
  split
  · cases hloop : loop_body cfg orc w with
    | error e => rfl
    | ok p =>
      rcases p with ⟨b, w1⟩
      cases b <;> rfl
  · rfl

theorem polym_loop_auxF_eq {cfg : Cfg} {orc : Oracle} :
    ∀ (n : Nat) (w : World), (cfg.bonds_tot - w.bonds).toNat ≤ n →
      polym_loop_auxF cfg orc n w = polym_loop_aux cfg orc w := by
  intro n
  induction n with
  | zero =>
    intro w hn
    have hlt : ¬ (w.bonds < cfg.bonds_tot) := by omega
    rw [polym_loop_aux_eq_body]
    show loopAuxBodyF cfg orc w _ = _
    rw [loopAuxBodyF_eq]
    unfold loopAuxBody
    split
    next hcond => exact absurd hcond hlt
    · rfl
  | succ n ih =>
    intro w hn
    rw [polym_loop_aux_eq_body]
    show loopAuxBodyF cfg orc w _ = _
    rw [loopAuxBodyF_eq]
    unfold loopAuxBody
    split
    next hcond =>
      split
      · rfl
      · rfl
      next w1 hb =>
        have hb1 := loop_body_bonds hb rfl
        exact ih w1 (by omega)
    · rfl

theorem polym_loopF_eq {cfg : Cfg} {orc : Oracle} {n : Nat} {w : World}
    (hn : (cfg.bonds_tot - w.bonds).toNat ≤ n) :
    polym_loopF n cfg orc w = polym_loop cfg orc w := by
  unfold polym_loopF polym_loop
  cases hi : polym_init cfg orc w with
  | error e => rfl
  | ok w1 =>
    dsimp only
    cases hs : setup_step w1 with
    | error e => rfl
    | ok w2 =>
      dsimp only
      cases he : em cfg orc w2 with
      | error e => rfl
      | ok w3 =>
        dsimp only
        have e1 := (polym_init_ok hi).1
        have e2 := (setup_step_ok hs).1
        have e3 := (em_ok he).1
        rw [polym_loop_auxF_eq n w3 (by omega)]

theorem runProgramF_eq {cfg : Cfg} {orc : Oracle} {n : Nat}
    (hn : cfg.bonds_tot.toNat ≤ n) :
    runProgramF n cfg orc = runProgram cfg orc := by
  unfold runProgramF runProgram
  rw [polym_loopF_eq (by simp only [initWorld]; omega)]

/-! ### Invariants across one main-loop iteration -/

theorem loop_body_spec {cfg : Cfg} {orc : Oracle} {w : World} {b : Bool}
    {w1 : World} (hcwd : w.cwd = []) (hab : w.aborted = none)
    (h : loop_body cfg orc w = Except.ok (b, w1)) :
    w1.cwd = [] ∧
    w1.finalRuns = w.finalRuns ∧
    (∀ d, d ∈ w1.created → d ∈ w.created ∨ underGlob [] "step_" d = true) ∧
    (cfg.keep = 0 → ∀ p, p ∈ w1.dirs → underGlob [] "step_" p = false) ∧
    (cfg.keep ≠ 0 → (∀ d, d ∈ w.created → d ∈ w.dirs) →
      (∀ p, p ∈ w.dirs → p ∈ w1.dirs) ∧ (∀ d, d ∈ w1.created → d ∈ w1.dirs)) ∧
    (b = true → w1.aborted = none ∧ w1.decrements = w.decrements ∧
      w1.bonds = w.bonds + 1) ∧
    (b = false →
      (w1.aborted = none ∧ w1.decrements = w.decrements ∧
        w1.bonds = w.bonds + 1 ∧ w1.bonds = cfg.bonds_tot) ∨
      (w1.aborted = some (w.bonds + 1) ∧ w1.bonds = w.bonds ∧
        w1.decrements = w.decrements + 1)) := by
  unfold loop_body at h
  split at h
  · cases h
  next s1 heq1 =>
    obtain ⟨e1bonds, e1cwd, e1dirs, e1created, e1ab, e1dec, e1fin, e1sc, e1em,
      e1mc, e1log⟩ := setup_step_ok heq1
    have n1bonds : s1.bonds = w.bonds + 1 := by simpa using e1bonds
    have n1cwd : s1.cwd = ["step_" ++ pad3 (w.bonds + 1)] := by
      simpa [hcwd] using e1cwd
    have n1dirs : s1.dirs = [["step_" ++ pad3 (w.bonds + 1)]] ++ w.dirs := by
      simpa [hcwd] using e1dirs
    have n1created : s1.created = w.created ++ [["step_" ++ pad3 (w.bonds + 1)]] := by
      simpa [hcwd] using e1created
    have n1ab : s1.aborted = none := by simpa [hab] using e1ab
    have n1dec : s1.decrements = w.decrements := by simpa using e1dec
    have n1fin : s1.finalRuns = w.finalRuns := by simpa using e1fin
    have hstage1 : underGlob [] "step_" ["step_" ++ pad3 (w.bonds + 1)] = true := by
      simp [strStarts_append]
    split at h
    · cases h
    next code s2 heq2 =>
      replace heq2 : polym_step_from cfg orc 1 s1 = Except.ok (code, s2) := heq2
      obtain ⟨c01, sfin, screated, sc0, sc1, skeep⟩ :=
        polym_step_from_spec _ 1 s1 code s2 rfl heq2
      split at h
      · -- code = 1: exhaustion, loop breaks with rollback
        next hc1 =>
        cases h
        obtain ⟨a_ab, a_bonds, a_cwd, a_dec, a_dirs⟩ := sc1 hc1
        have hdl : s1.cwd.dropLast = [] := by rw [n1cwd]; rfl
        refine ⟨by rw [a_cwd, hdl], by rw [sfin, n1fin], ?_, ?_, ?_,
          fun hft => absurd hft (by decide), fun _ => Or.inr ?_⟩
        · intro d hd
          rcases screated d hd with hin | ⟨nm, hnm⟩
          · rw [n1created] at hin
            rcases List.mem_append.mp hin with h2 | h2
            · exact Or.inl h2
            · rw [List.mem_singleton.mp h2]
              exact Or.inr hstage1
          · refine Or.inr ?_
            rw [hnm, n1cwd]
            simpa using hstage1
        · intro hk0 p hp
          have := a_dirs hk0 p hp
          rwa [hdl] at this
        · intro hk hcd
          obtain ⟨sup, scr⟩ := skeep hk
          have supw : ∀ p, p ∈ w.dirs → p ∈ w1.dirs := by
            intro p hp
            exact sup p (by rw [n1dirs]; exact List.mem_append.mpr (Or.inr hp))
          refine ⟨supw, ?_⟩
          intro d hd
          rcases scr d hd with hin | hin
          · rw [n1created] at hin
            rcases List.mem_append.mp hin with h2 | h2
            · exact supw d (hcd d h2)
            · rw [List.mem_singleton.mp h2]
              exact sup _ (by rw [n1dirs]; simp)
          · exact hin
        · have hsome : w1.aborted = some (w.bonds + 1) := by
            rw [a_ab, n1bonds]
          exact ⟨hsome, by rw [a_bonds, n1bonds]; omega, by rw [a_dec, n1dec]⟩
      next hc1 =>
        have hc0 : code = 0 := c01.resolve_right hc1
        obtain ⟨z_bonds, z_cwd, z_ab, z_dec⟩ := sc0 hc0
        split at h
        · cases h
        next s3 heq3 =>
          obtain ⟨f_bonds, f_cwd, f_created, f_ab, f_dec, f_fin, f_sc, f_log,
            f_dirs1, f_dirs0⟩ := em_ok heq3
          have hdl2 : s2.cwd.dropLast = [] := by rw [z_cwd, n1cwd]; rfl
          have n3cwd : s3.cwd = [] := by rw [f_cwd, hdl2]
          have n3bonds : s3.bonds = w.bonds + 1 := by rw [f_bonds, z_bonds, n1bonds]
          have n3ab : s3.aborted = none := by rw [f_ab, z_ab, n1ab]
          have n3dec : s3.decrements = w.decrements := by rw [f_dec, z_dec, n1dec]
          have n3fin : s3.finalRuns = w.finalRuns := by rw [f_fin, sfin, n1fin]
          have n3createdm : ∀ d, d ∈ s3.created →
              d ∈ w.created ∨ underGlob [] "step_" d = true := by
            intro d hd
            rw [f_created] at hd
            rcases screated d hd with hin | ⟨nm, hnm⟩
            · rw [n1created] at hin
              rcases List.mem_append.mp hin with h2 | h2
              · exact Or.inl h2
              · rw [List.mem_singleton.mp h2]
                exact Or.inr hstage1
            · refine Or.inr ?_
              rw [hnm, n1cwd]
              simpa using hstage1
          have n3dirs0 : cfg.keep = 0 →
              ∀ p, p ∈ s3.dirs → underGlob [] "step_" p = false := by
            intro hk0 p hp
            rw [f_dirs0 hk0] at hp
            rw [List.mem_filter] at hp
            have := hp.2
            rwa [hdl2, Bool.not_eq_eq_eq_not, Bool.not_true] at this
          have n3keep : cfg.keep ≠ 0 → (∀ d, d ∈ w.created → d ∈ w.dirs) →
              (∀ p, p ∈ w.dirs → p ∈ s3.dirs) ∧
              (∀ d, d ∈ s3.created → d ∈ s3.dirs) := by
            intro hk hcd
            obtain ⟨sup, scr⟩ := skeep hk
            have supw : ∀ p, p ∈ w.dirs → p ∈ s3.dirs := by
              intro p hp
              rw [f_dirs1 hk]
              exact sup p (by rw [n1dirs]; exact List.mem_append.mpr (Or.inr hp))
            refine ⟨supw, ?_⟩
            intro d hd
            rw [f_created] at hd
            rw [f_dirs1 hk]
            rcases scr d hd with hin | hin
            · rw [n1created] at hin
              rcases List.mem_append.mp hin with h2 | h2
              · have hmem : d ∈ s1.dirs := by
                  rw [n1dirs]
                  exact List.mem_append.mpr (Or.inr (hcd d h2))
                exact sup d hmem
              · rw [List.mem_singleton.mp h2]
                exact sup _ (by rw [n1dirs]; simp)
            · exact hin
          split at h
          · -- bonds reached the target: loop breaks as completed
            next htot =>
            cases h
            exact ⟨n3cwd, n3fin, n3createdm, n3dirs0, fun hk hcd => n3keep hk hcd,
              fun hft => absurd hft (by decide),
              fun _ => Or.inl ⟨n3ab, n3dec, n3bonds, htot⟩⟩
          next htot =>
            split at h
            · cases h
            · split at h
              · -- molecular-dynamics cycle
                split at h
                · cases h
                next s4 heq4 =>
                  obtain ⟨nm, hnm0, g_cwd, g_dirs, g_created, g_bonds, g_ab,
                    g_dec, g_fin, g_sc, g_em, g_log⟩ := setup_md_ok heq4
                  have hnm : nm = "step_" ++ pad3 (w.bonds + 1) ++ "_md" := by
                    rw [hnm0 rfl, n3bonds]
                  have hstage4 : underGlob [] "step_" [nm] = true := by
                    rw [hnm, String.append_assoc]
                    simp [strStarts_append]
                  have n4cwd : s4.cwd = [nm] := by rw [g_cwd, n3cwd]; rfl
                  have n4created : s4.created = s3.created ++ [[nm]] := by
                    rw [g_created, n3cwd]; rfl
                  split at h
                  · cases h
                  · -- the two equilibration types
                    have hmd : ∀ (num : Nat), num ≠ 0 →
                        ∀ {s5 : World}, md cfg orc num s4 = Except.ok s5 →
                        (Except.ok ((true : Bool), s5) : Except Err (Bool × World)) =
                          Except.ok (b, w1) →
                        w1.cwd = [] ∧
                        w1.finalRuns = w.finalRuns ∧
                        (∀ d, d ∈ w1.created →
                          d ∈ w.created ∨ underGlob [] "step_" d = true) ∧
                        (cfg.keep = 0 →
                          ∀ p, p ∈ w1.dirs → underGlob [] "step_" p = false) ∧
                        (cfg.keep ≠ 0 → (∀ d, d ∈ w.created → d ∈ w.dirs) →
                          (∀ p, p ∈ w.dirs → p ∈ w1.dirs) ∧
                          (∀ d, d ∈ w1.created → d ∈ w1.dirs)) ∧
                        (b = true → w1.aborted = none ∧
                          w1.decrements = w.decrements ∧
                          w1.bonds = w.bonds + 1) ∧
                        (b = false →
                          (w1.aborted = none ∧ w1.decrements = w.decrements ∧
                            w1.bonds = w.bonds + 1 ∧ w1.bonds = cfg.bonds_tot) ∨
                          (w1.aborted = some (w.bonds + 1) ∧ w1.bonds = w.bonds ∧
                            w1.decrements = w.decrements + 1)) := by
                      intro num hnum s5 heq5 hok
                      cases hok
                      obtain ⟨m_bonds, m_cwd, m_created, m_ab, m_dec, m_fin, m_sc,
                        m_log, m_dirs1, m_dirs00, m_dirs0s⟩ := md_ok heq5
                      have hdl4 : s4.cwd.dropLast = [] := by rw [n4cwd]; rfl
                      refine ⟨by rw [m_cwd, hdl4], by rw [m_fin, g_fin, n3fin],
                        ?_, ?_, ?_, ?_, fun hft => absurd hft (by decide)⟩
                      · intro d hd
                        rw [m_created, n4created] at hd
                        rcases List.mem_append.mp hd with h2 | h2
                        · exact n3createdm d h2
                        · rw [List.mem_singleton.mp h2]
                          exact Or.inr hstage4
                      · intro hk0 p hp
                        rw [m_dirs0s hk0 hnum] at hp
                        rw [List.mem_filter] at hp
                        have := hp.2
                        rwa [hdl4, Bool.not_eq_eq_eq_not, Bool.not_true] at this
                      · intro hk hcd
                        have sup4 : ∀ p, p ∈ s3.dirs → p ∈ w1.dirs := by
                          intro p hp
                          rw [m_dirs1 hk, g_dirs]
                          exact List.mem_cons_of_mem _ hp
                        obtain ⟨sup3, scr3⟩ := n3keep hk hcd
                        refine ⟨fun p hp => sup4 p (sup3 p hp), ?_⟩
                        intro d hd
                        rw [m_created, n4created] at hd
                        rcases List.mem_append.mp hd with h2 | h2
                        · exact sup4 d (scr3 d h2)
                        · rw [List.mem_singleton.mp h2]
                          rw [m_dirs1 hk, g_dirs, n3cwd]
                          simp
                      · intro _
                        exact ⟨by rw [m_ab, g_ab, n3ab],
                          by rw [m_dec, g_dec, n3dec],
                          by rw [m_bonds, g_bonds, n3bonds]⟩
                    split at h
                    · split at h
                      · cases h
                      next s5 heq5 => exact hmd 2 (by decide) heq5 h
                    · split at h
                      · cases h
                      next s5 heq5 => exact hmd 1 (by decide) heq5 h
              · -- no cycle this iteration: continue
                cases h
                exact ⟨n3cwd, n3fin, n3createdm, n3dirs0,
                  fun hk hcd => n3keep hk hcd,
                  fun _ => ⟨n3ab, n3dec, n3bonds⟩,
                  fun hft => absurd hft (by decide)⟩

/-! ### Invariants across the whole main loop -/

theorem polym_loop_aux_spec {cfg : Cfg} {orc : Oracle} :
    ∀ (n : Nat) (w w' : World),
      (cfg.bonds_tot - w.bonds).toNat ≤ n →
      w.cwd = [] → w.aborted = none → w.decrements = 0 →
      (∀ d, d ∈ w.created → underGlob [] "step_" d = true) →
      polym_loop_aux cfg orc w = Except.ok w' →
      w'.cwd = [] ∧
      w'.finalRuns = w.finalRuns ∧
      (∀ d, d ∈ w'.created → underGlob [] "step_" d = true) ∧
      (cfg.keep = 0 → (∀ p, p ∈ w.dirs → underGlob [] "step_" p = false) →
        (∀ p, p ∈ w'.dirs → underGlob [] "step_" p = false)) ∧
      (cfg.keep ≠ 0 → (∀ d, d ∈ w.created → d ∈ w.dirs) →
        (∀ d, d ∈ w'.created → d ∈ w'.dirs)) ∧
      (w'.aborted = none → w'.decrements = 0 ∧
        (0 ≤ w.bonds → w.bonds ≤ cfg.bonds_tot → w'.bonds = cfg.bonds_tot)) ∧
      (∀ k, w'.aborted = some k → w'.bonds = k - 1 ∧ w'.decrements = 1) ∧
      (0 ≤ w.bonds → w.bonds ≤ cfg.bonds_tot →
        0 ≤ w'.bonds ∧ w'.bonds ≤ cfg.bonds_tot) := by
  intro n
  induction n with
  | zero =>
    intro w w' hn hcwd hab hdec hcr h
    have hlt : ¬ (w.bonds < cfg.bonds_tot) := by omega
    rw [polym_loop_aux_eq_body] at h
    unfold loopAuxBody at h
    rw [dif_neg hlt] at h
    cases h
    refine ⟨hcwd, rfl, hcr, fun _ hns => hns, fun _ hcd => hcd,
      fun _ => ⟨hdec, fun h0 hle => by omega⟩, ?_, fun h0 hle => ⟨h0, hle⟩⟩
    intro k hk
    rw [hab] at hk
    cases hk
  | succ n ih =>
    intro w w' hn hcwd hab hdec hcr h
    rw [polym_loop_aux_eq_body] at h
    unfold loopAuxBody at h
    split at h
    next hlt =>
      split at h
      · cases h
      next w1 hb =>
        cases h
        obtain ⟨bcwd, bfin, bcr, bk0, bk1, _, bfalse⟩ := loop_body_spec hcwd hab hb
        have bcr2 : ∀ d, d ∈ w'.created → underGlob [] "step_" d = true :=
          fun d hd => (bcr d hd).elim (hcr d) id
        rcases bfalse rfl with ⟨cab, cdec, cbonds, ctot⟩ | ⟨cab, cbonds, cdec⟩
        · refine ⟨bcwd, bfin, bcr2, fun hk0 _ => bk0 hk0,
            fun hk hcd => (bk1 hk hcd).2,
            fun _ => ⟨by omega, fun _ _ => ctot⟩, ?_, fun h0 hle => by omega⟩
          intro k hk
          rw [cab] at hk
          cases hk
        · refine ⟨bcwd, bfin, bcr2, fun hk0 _ => bk0 hk0,
            fun hk hcd => (bk1 hk hcd).2, ?_, ?_, fun h0 hle => by omega⟩
          · intro hnone
            rw [cab] at hnone
            cases hnone
          · intro k hk
            rw [cab] at hk
            have hk2 := Option.some.inj hk
            constructor
            · omega
            · omega
      next w1 hb =>
        obtain ⟨bcwd, bfin, bcr, bk0, bk1, btrue, _⟩ := loop_body_spec hcwd hab hb
        obtain ⟨tab, tdec, tbonds⟩ := btrue rfl
        have bcr2 : ∀ d, d ∈ w1.created → underGlob [] "step_" d = true :=
          fun d hd => (bcr d hd).elim (hcr d) id
        obtain ⟨icwd, ifin, icr, ik0, ik1, inone, isome, ibounds⟩ :=
          ih w1 w' (by omega) bcwd tab (by omega) bcr2 h
        refine ⟨icwd, by rw [ifin, bfin], icr,
          fun hk0 _ => ik0 hk0 (bk0 hk0),
          fun hk hcd => ik1 hk (bk1 hk hcd).2, ?_, isome, ?_⟩
        · intro hnone
          obtain ⟨i1, i2⟩ := inone hnone
          exact ⟨i1, fun h0 hle => i2 (by omega) (by omega)⟩
        · intro h0 hle
          obtain ⟨j1, j2⟩ := ibounds (by omega) (by omega)
          exact ⟨j1, j2⟩
    · cases h
      next hlt =>
      refine ⟨hcwd, rfl, hcr, fun _ hns => hns, fun _ hcd => hcd,
        fun _ => ⟨hdec, fun h0 hle => by omega⟩, ?_, fun h0 hle => ⟨h0, hle⟩⟩
      intro k hk
      rw [hab] at hk
      cases hk

/-! ### End-to-end facts about a completed run -/

theorem runProgram_ok_spec {cfg : Cfg} {orc : Oracle} {w' : World}
    (h : runProgram cfg orc = Except.ok w') :
    w'.finalRuns = 1 ∧
    ["final.lmps"] ∈ w'.files ∧
    ["temp.lmps"] ∉ w'.files ∧
    w'.cwd = [] ∧
    w'.decrements ≤ 1 ∧
    (w'.aborted = none → w'.decrements = 0 ∧
      (0 ≤ cfg.bonds_tot → w'.bonds = cfg.bonds_tot)) ∧
    (∀ k, w'.aborted = some k → w'.bonds = k - 1 ∧ w'.decrements = 1) ∧
    (0 ≤ cfg.bonds_tot → 0 ≤ w'.bonds ∧ w'.bonds ≤ cfg.bonds_tot) ∧
    (cfg.keep = 0 → ∀ d, d ∈ w'.created → d ∉ w'.dirs) ∧
    (cfg.keep ≠ 0 → ∀ d, d ∈ w'.created → d ∈ w'.dirs) := by
  unfold runProgram at h
  split at h
  · cases h
  next wL hL =>
    unfold print_footer at h
    split at h
    · cases h
    · cases h
      unfold polym_loop at hL
      split at hL
      · cases hL
      next w1 h1 =>
        split at hL
        · cases hL
        next w2 h2 =>
          split at hL
          · cases hL
          next w3 h3 =>
            split at hL
            · cases hL
            next w4 h4 =>
              obtain ⟨i_bonds, i_cwd, i_dirs, i_created, i_ab, i_dec, i_fin,
                _, _, _, _⟩ := polym_init_ok h1
              obtain ⟨s_bonds, s_cwd, s_dirs, s_created, s_ab, s_dec, s_fin,
                _, _, _, _⟩ := setup_step_ok h2
              obtain ⟨e_bonds, e_cwd, e_created, e_ab, e_dec, e_fin, _, _,
                e_dirs1, e_dirs0⟩ := em_ok h3
              have n1cwd : w1.cwd = [] := by simp [initWorld] at i_cwd; exact i_cwd
              have n1bonds : w1.bonds = 0 := by simp [initWorld] at i_bonds; exact i_bonds
              have n1created : w1.created = [] := by
                simp [initWorld] at i_created; exact i_created
              have n1ab : w1.aborted = none := by simp [initWorld] at i_ab; exact i_ab
              have n1dec : w1.decrements = 0 := by simp [initWorld] at i_dec; exact i_dec
              have n1fin : w1.finalRuns = 0 := by simp [initWorld] at i_fin; exact i_fin
              have n2cwd : w2.cwd = ["step_" ++ pad3 w1.bonds] := by
                rw [s_cwd, n1cwd]; rfl
              have n3cwd : w3.cwd = [] := by rw [e_cwd, n2cwd]; rfl
              have n3bonds : w3.bonds = 0 := by rw [e_bonds, s_bonds, n1bonds]
              have n3ab : w3.aborted = none := by rw [e_ab, s_ab, n1ab]
              have n3dec : w3.decrements = 0 := by rw [e_dec, s_dec, n1dec]
              have n3fin : w3.finalRuns = 0 := by rw [e_fin, s_fin, n1fin]
              have n3created : ∀ d, d ∈ w3.created →
                  underGlob [] "step_" d = true := by
                intro d hd
                rw [e_created, s_created, n1created, n1cwd] at hd
                simp only [List.nil_append, List.mem_singleton] at hd
                rw [hd]
                simp [strStarts_append]
              obtain ⟨a_cwd, a_fin, a_created, a_k0, a_k1, a_none, a_some,
                a_bounds⟩ := polym_loop_aux_spec cfg.bonds_tot.toNat w3 w4
                  (by omega) n3cwd n3ab n3dec n3created h4
              obtain ⟨f_fin, f_bonds, f_cwd, f_dirs, f_created, f_ab, f_dec,
                _, f_final, f_temp⟩ := polym_final_ok hL
              have w'fin : w'.finalRuns = 1 := by
                rw [f_fin, a_fin, n3fin]
              refine ⟨w'fin, ?_, ?_, by rw [f_cwd, a_cwd], ?_, ?_, ?_, ?_, ?_, ?_⟩
              · rw [a_cwd] at f_final
                simpa using f_final
              · intro htemp
                have := f_temp _ htemp
                rw [a_cwd] at this
                simp at this
              · rcases hob : w4.aborted with _ | k
                · have := (a_none hob).1
                  rw [f_dec, this]
                  omega
                · have := (a_some k hob).2
                  rw [f_dec, this]
              · intro hnone
                rw [f_ab] at hnone
                obtain ⟨d1, d2⟩ := a_none hnone
                refine ⟨by rw [f_dec, d1], ?_⟩
                intro h0
                rw [f_bonds]
                exact d2 (by omega) (by omega)
              · intro k hk
                rw [f_ab] at hk
                obtain ⟨d1, d2⟩ := a_some k hk
                exact ⟨by rw [f_bonds, d1], by rw [f_dec, d2]⟩
              · intro h0
                obtain ⟨d1, d2⟩ := a_bounds (by omega) (by omega)
                exact ⟨by rw [f_bonds]; exact d1, by rw [f_bonds]; exact d2⟩
              · intro hk0 d hd hdin
                rw [f_created] at hd
                rw [f_dirs] at hdin
                have hstage := a_created d hd
                have hns : ∀ p, p ∈ w3.dirs → underGlob [] "step_" p = false := by
                  intro p hp
                  rw [e_dirs0 hk0] at hp
                  rw [List.mem_filter] at hp
                  have := hp.2
                  rw [n2cwd] at this
                  rwa [Bool.not_eq_eq_eq_not, Bool.not_true] at this
                have := a_k0 hk0 hns d hdin
                rw [hstage] at this
                cases this
              · intro hk d hd
                rw [f_created] at hd
                rw [f_dirs]
                have hsub : ∀ d2, d2 ∈ w3.created → d2 ∈ w3.dirs := by
                  intro d2 hd2
                  rw [e_created, s_created, n1created] at hd2
                  simp only [List.nil_append, List.mem_singleton] at hd2
                  rw [e_dirs1 hk, s_dirs, hd2]
                  exact List.mem_cons_self _ _
                exact a_k1 hk hsub d hd

theorem runProgram_ok_exit {cfg : Cfg} {orc : Oracle} {w' : World}
    (h : runProgram cfg orc = Except.ok w') : exitStatus cfg orc = 0 := by
  unfold exitStatus
  rw [h]

/-! ### Concrete executions (through the fuel shadows) -/

theorem stepAbort_eval :
    polym_step cfgAbort orcNoPair initWorld = Except.ok (1, wAbortStep) := by
  rw [← polym_stepF_eq]
  decide

theorem runAbort_eval : runProgram cfgAbort orcNoPair = Except.ok wAbort := by
  rw [← runProgramF_eq (by decide : cfgAbort.bonds_tot.toNat ≤ 1)]
  decide

theorem runKeep_eval : runProgram cfgKeep orcNoPair = Except.ok wKeep := by
  rw [← runProgramF_eq (by decide : cfgKeep.bonds_tot.toNat ≤ 1)]
  decide

theorem setupStage0_eval : setup_step wTemp = Except.ok wStage0 := by decide

theorem setupStage1_eval : setup_step wTemp1 = Except.ok wStage1 := by decide

/-! ### The claims -/

/-- C1: within one call of `polym_step` the topology tool is invoked at most
`md_max + 1` times, and exhaustion (return value 1) is declared exactly at the
last permitted no-pair outcome: on a run returning 1 the invocation count is
exactly `md_max + 1`; never more invocations occur. -/
theorem polym_step_attempt_bound {cfg : Cfg} {orc : Oracle} {w : World}
    {c : Nat} {w' : World} (hmax : 0 ≤ cfg.md_max)
    (h : polym_step cfg orc w = Except.ok (c, w')) :
    (w'.stepCalls : Int) ≤ (w.stepCalls : Int) + (cfg.md_max + 1) ∧
    (c = 1 → (w'.stepCalls : Int) = (w.stepCalls : Int) + (cfg.md_max + 1)) := by
  unfold polym_step at h
  obtain ⟨h1, h2⟩ := polym_step_from_calls _ 1 w c w' rfl (le_refl 1)
    (by push_cast; omega) h
  refine ⟨?_, ?_⟩
  · push_cast at h1 ⊢
    omega
  · intro hc
    have h3 := h2 hc
    push_cast at h3 ⊢
    omega

/-- Witness for C1 at the immediate-exhaustion run. -/
theorem polym_step_attempt_bound_witness :
    (0 : Int) ≤ cfgAbort.md_max ∧
    polym_step cfgAbort orcNoPair initWorld = Except.ok (1, wAbortStep) ∧
    (wAbortStep.stepCalls : Int) =
      (initWorld.stepCalls : Int) + (cfgAbort.md_max + 1) := by
  refine ⟨by decide, stepAbort_eval, ?_⟩
  exact (polym_step_attempt_bound (by decide) stepAbort_eval).2 rfl

/-- C2: if a run completes and attempt exhaustion struck at bond index k (the
tentative increment had made the counter k), the counter after rollback equals
k - 1, finalization still executed, and the process exit status is 0. -/
theorem exhaustion_rollback_run {cfg : Cfg} {orc : Oracle} {w' : World} {k : Int}
    (h : runProgram cfg orc = Except.ok w') (hab : w'.aborted = some k) :
    w'.bonds = k - 1 ∧ w'.finalRuns = 1 ∧ exitStatus cfg orc = 0 := by
  obtain ⟨hfin, _, _, _, _, _, hsome, _, _, _⟩ := runProgram_ok_spec h
  exact ⟨(hsome k hab).1, hfin, runProgram_ok_exit h⟩

/-- Witness for C2 at the exhaustion run, aborted at bond index 1. -/
theorem exhaustion_rollback_run_witness :
    runProgram cfgAbort orcNoPair = Except.ok wAbort ∧
    wAbort.aborted = some 1 ∧
    (wAbort.bonds = 1 - 1 ∧ wAbort.finalRuns = 1 ∧
      exitStatus cfgAbort orcNoPair = 0) := by
  exact ⟨runAbort_eval, rfl, exhaustion_rollback_run runAbort_eval rfl⟩

/-- C3: stage-cursor discipline: `setup_step` and `setup_md` push exactly one
directory component, `em` and `md` pop exactly one, `polym_step` leaves the
cursor unchanged on success and pops exactly one in the exhaustion (abort)
branch, one main-loop iteration returns the cursor to the top level, and a
completed run (whose last act is finalization) ends with the cursor at the
top-level run directory. -/
theorem stage_cursor_discipline {cfg : Cfg} {orc : Oracle} :
    (∀ w w', setup_step w = Except.ok w' →
      w'.cwd = w.cwd ++ ["step_" ++ pad3 w.bonds]) ∧
    (∀ num w w', setup_md num w = Except.ok w' → ∃ nm, w'.cwd = w.cwd ++ [nm]) ∧
    (∀ w w', em cfg orc w = Except.ok w' → w'.cwd = w.cwd.dropLast) ∧
    (∀ num w w', md cfg orc num w = Except.ok w' → w'.cwd = w.cwd.dropLast) ∧
    (∀ w c w', polym_step cfg orc w = Except.ok (c, w') →
      (c = 0 → w'.cwd = w.cwd) ∧ (c = 1 → w'.cwd = w.cwd.dropLast)) ∧
    (∀ w b w1, w.cwd = [] → w.aborted = none →
      loop_body cfg orc w = Except.ok (b, w1) → w1.cwd = []) ∧
    (∀ w', runProgram cfg orc = Except.ok w' → w'.cwd = []) := by
  refine ⟨?_, ?_, ?_, ?_, ?_, ?_, ?_⟩
  · intro w w' h
    exact (setup_step_ok h).2.1
  · intro num w w' h
    obtain ⟨nm, _, hcwd, _⟩ := setup_md_ok h
    exact ⟨nm, hcwd⟩
  · intro w w' h
    exact (em_ok h).2.1
  · intro num w w' h
    exact (md_ok h).2.1
  · intro w c w' h
    unfold polym_step at h
    obtain ⟨_, _, _, hc0, hc1, _⟩ := polym_step_from_spec _ 1 w c w' rfl h
    exact ⟨fun hc => (hc0 hc).2.1, fun hc => (hc1 hc).2.2.1⟩
  · intro w b w1 hcwd hab h
    exact (loop_body_spec hcwd hab h).1
  · intro w' h
    exact (runProgram_ok_spec h).2.2.2.1

/-- Witness for C3: the exhaustion run, which took the abort path, ends with
the cursor at the top level. -/
theorem stage_cursor_discipline_witness :
    runProgram cfgAbort orcNoPair = Except.ok wAbort ∧ wAbort.cwd = [] := by
  refine ⟨runAbort_eval, ?_⟩
  exact (@stage_cursor_discipline cfgAbort orcNoPair).2.2.2.2.2.2 wAbort runAbort_eval

set_option maxHeartbeats 2000000 in
/-- C4: with the script parameters (target 16, five bonds per cycle, cycle
frequency 3) on a run where every bond attempt succeeds, equilibration MD runs
exactly after bonds 5, 10 and 15 — type 1 at bonds 5 and 10, type 2 at bond 15
(where (15 / 5) mod 3 = 0) — no equilibration follows bond 16, and the run
completes with all 16 bonds and no abort. -/
theorem cycle_policy_default_run :
    (runProgram defaultCfg orcAllOk).map
        (fun w => (w.mdLog, w.bonds, w.aborted)) =
      Except.ok ([(5, 1), (10, 1), (15, 2)], 16, none) := by
  rw [← runProgramF_eq (by decide : defaultCfg.bonds_tot.toNat ≤ 16)]
  decide

/-- C5: contrary to the plain-copy fallback continuing normally, when the
initialization tool is absent (`script_init = 0`) `polym_init` performs the
copy and then evaluates the never-assigned local variable `code`, raising an
uncaught NameError; when the finalization tool is absent (`script_final = 0`)
`polym_final` does the same.  Neither run continues past the copy. -/
theorem optional_tool_copy_branch_raises :
    polym_init cfgNoInit orcAllOk initWorld =
      Except.error (Err.pyError "NameError: name code is not defined") ∧
    polym_final cfgNoFinal orcAllOk wTemp =
      Except.error (Err.pyError "NameError: name code is not defined") := by
  exact ⟨by decide, by decide⟩

/-- C6: the bond counter starts at 0; on every completed run it ends within
[0, target] and was decremented at most once (never on an unaborted run); each
continuing loop iteration increases it by exactly 1, and `polym_step` leaves
it unchanged on success and decrements it by exactly 1 — restoring the
pre-attempt value — in the exhaustion branch. -/
theorem bonds_counter_invariant {cfg : Cfg} {orc : Oracle} {w' : World}
    (htot : 0 ≤ cfg.bonds_tot) (h : runProgram cfg orc = Except.ok w') :
    initWorld.bonds = 0 ∧
    (0 ≤ w'.bonds ∧ w'.bonds ≤ cfg.bonds_tot) ∧
    w'.decrements ≤ 1 ∧
    (w'.aborted = none → w'.decrements = 0) ∧
    (∀ w1 b w2, loop_body cfg orc w1 = Except.ok (b, w2) → b = true →
      w2.bonds = w1.bonds + 1) ∧
    (∀ w1 c w2, polym_step cfg orc w1 = Except.ok (c, w2) →
      (c = 0 → w2.bonds = w1.bonds) ∧ (c = 1 → w2.bonds = w1.bonds - 1)) := by
  obtain ⟨_, _, _, _, hdec, hnone, _, hbounds, _, _⟩ := runProgram_ok_spec h
  refine ⟨rfl, hbounds htot, hdec, fun hn => (hnone hn).1, ?_, ?_⟩
  · intro w1 b w2 hb hbt
    exact loop_body_bonds hb hbt
  · intro w1 c w2 hs
    unfold polym_step at hs
    obtain ⟨_, _, _, hc0, hc1, _⟩ := polym_step_from_spec _ 1 w1 c w2 rfl hs
    exact ⟨fun hc => (hc0 hc).1, fun hc => (hc1 hc).2.1⟩

/-- Witness for C6 at the exhaustion run. -/
theorem bonds_counter_invariant_witness :
    (0 : Int) ≤ cfgAbort.bonds_tot ∧
    runProgram cfgAbort orcNoPair = Except.ok wAbort ∧
    (initWorld.bonds = 0 ∧ (0 ≤ wAbort.bonds ∧ wAbort.bonds ≤ cfgAbort.bonds_tot) ∧
      wAbort.decrements ≤ 1) := by
  refine ⟨by decide, runAbort_eval, ?_⟩
  obtain ⟨h1, h2, h3, _⟩ := bonds_counter_invariant (by decide) runAbort_eval
  exact ⟨h1, h2, h3⟩

/-- C7: every run free of fatal conditions executes finalization exactly once
— both on completion and after an exhaustion abort — leaving `final.lmps`
present and `temp.lmps` removed, and the process exits with status 0. -/
theorem finalization_always_runs {cfg : Cfg} {orc : Oracle} {w' : World}
    (h : runProgram cfg orc = Except.ok w') :
    w'.finalRuns = 1 ∧ ["final.lmps"] ∈ w'.files ∧ ["temp.lmps"] ∉ w'.files ∧
    exitStatus cfg orc = 0 := by
  obtain ⟨h1, h2, h3, _⟩ := runProgram_ok_spec h
  exact ⟨h1, h2, h3, runProgram_ok_exit h⟩

/-- Witness for C7 at the aborted-but-finalized run with `keep = 1`. -/
theorem finalization_always_runs_witness :
    runProgram cfgKeep orcNoPair = Except.ok wKeep ∧
    (wKeep.finalRuns = 1 ∧ ["final.lmps"] ∈ wKeep.files ∧
      ["temp.lmps"] ∉ wKeep.files ∧ exitStatus cfgKeep orcNoPair = 0) := by
  exact ⟨runKeep_eval, finalization_always_runs runKeep_eval⟩

/-- C8: creating a stage directory whose name is already taken is fatal: both
`setup_step` and `setup_md` stop with `err_exit` (exit status 1: the error is
`Err.fatal`) and never reuse, merge or enter the existing directory. -/
theorem stage_collision_fatal {w : World} :
    (resolvePath w.cwd ["step_" ++ pad3 w.bonds] ∈ w.dirs →
      setup_step w = Except.error (Err.fatal
        ("Directory " ++ ("step_" ++ pad3 w.bonds) ++ " already exists."))) ∧
    (∀ num : Nat, resolvePath w.cwd
        [if num = 0 then "step_" ++ pad3 w.bonds ++ "_md"
          else "md_" ++ pad3 (num : Int)] ∈ w.dirs →
      setup_md num w = Except.error (Err.fatal
        ("Directory " ++ (if num = 0 then "step_" ++ pad3 w.bonds ++ "_md"
          else "md_" ++ pad3 (num : Int)) ++ " already exists."))) := by
  constructor
  · intro hmem
    unfold setup_step err_exit
    simp only []
    rw [if_pos (Or.inl hmem)]
  · intro num hmem
    unfold setup_md err_exit
    simp only []
    rw [if_pos (Or.inl hmem)]

/-- Witness for C8: a workspace where `step_000` is already taken. -/
theorem stage_collision_fatal_witness :
    resolvePath wColl.cwd ["step_" ++ pad3 wColl.bonds] ∈ wColl.dirs ∧
    setup_step wColl = Except.error (Err.fatal
      ("Directory " ++ ("step_" ++ pad3 wColl.bonds) ++ " already exists.")) := by
  refine ⟨by decide, ?_⟩
  exact stage_collision_fatal.1 (by decide)

/-- C9: after a run that reaches finalization, with `keep = 0` no stage
directory created during the run remains, while with `keep ≠ 0` every created
stage directory persists. -/
theorem cleanup_policy {cfg : Cfg} {orc : Oracle} {w' : World}
    (h : runProgram cfg orc = Except.ok w') :
    (cfg.keep = 0 → ∀ d, d ∈ w'.created → d ∉ w'.dirs) ∧
    (cfg.keep ≠ 0 → ∀ d, d ∈ w'.created → d ∈ w'.dirs) := by
  obtain ⟨_, _, _, _, _, _, _, _, h9, h10⟩ := runProgram_ok_spec h
  exact ⟨h9, h10⟩

/-- Witness for C9: the same abort scenario run with `keep = 0` (the created
`step_000` is gone) and with `keep = 1` (it persists). -/
theorem cleanup_policy_witness :
    (cfgAbort.keep = 0 ∧ ["step_000"] ∈ wAbort.created ∧
      ["step_000"] ∉ wAbort.dirs) ∧
    (cfgKeep.keep ≠ 0 ∧ ["step_000"] ∈ wKeep.created ∧
      ["step_000"] ∈ wKeep.dirs) := by
  refine ⟨⟨rfl, by decide, ?_⟩, ⟨by decide, by decide, ?_⟩⟩
  · exact (cleanup_policy runAbort_eval).1 rfl ["step_000"] (by decide)
  · exact (cleanup_policy runKeep_eval).2 (by decide) ["step_000"] (by decide)

/-- C10: `setup_step` stages the parent-level `temp.lmps` inside the new stage
directory under the name `data.lmps` when the bond counter is 0 and under
`init.lmps` when it is nonzero, and that staged copy is the only file it
adds. -/
theorem setup_step_staging_names {w w' : World}
    (h : setup_step w = Except.ok w') :
    resolvePath w.cwd ["temp.lmps"] ∈ w.files ∧
    w'.cwd = w.cwd ++ ["step_" ++ pad3 w.bonds] ∧
    resolvePath w'.cwd [if w.bonds = 0 then "data.lmps" else "init.lmps"]
      ∈ w'.files ∧
    (∀ p, p ∈ w'.files → p ∈ w.files ∨
      p = resolvePath w'.cwd
        [if w.bonds = 0 then "data.lmps" else "init.lmps"]) := by
  have hcwd := (setup_step_ok h).2.1
  unfold setup_step err_exit at h
  simp only [] at h
  rw [resolvePath_single _ (step_name_ne_up _)] at h
  split at h
  · cases h
  · split at h
    next hb0 =>
      obtain ⟨rfl, hsrc⟩ := copyFile_eq_ok h
      rw [if_pos hb0]
      rw [resolvePath_up_single _ (by decide)] at hsrc
      refine ⟨?_, hcwd, ?_, ?_⟩
      · rw [resolvePath_single _ (by decide)]
        simpa using hsrc
      · rw [addFile_cwd, mem_addFile_files_iff]
        exact Or.inl rfl
      · intro p hp
        rw [mem_addFile_files_iff] at hp
        rcases hp with hq | hp2
        · right
          rw [addFile_cwd]
          exact hq
        · left
          simpa using hp2
    next hb0 =>
      obtain ⟨rfl, hsrc⟩ := copyFile_eq_ok h
      rw [if_neg hb0]
      rw [resolvePath_up_single _ (by decide)] at hsrc
      refine ⟨?_, hcwd, ?_, ?_⟩
      · rw [resolvePath_single _ (by decide)]
        simpa using hsrc
      · rw [addFile_cwd, mem_addFile_files_iff]
        exact Or.inl rfl
      · intro p hp
        rw [mem_addFile_files_iff] at hp
        rcases hp with hq | hp2
        · right
          rw [addFile_cwd]
          exact hq
        · left
          simpa using hp2

/-- Witness for C10 at both a bond count of 0 and a bond count of 1. -/
theorem setup_step_staging_names_witness :
    (setup_step wTemp = Except.ok wStage0 ∧
      resolvePath wTemp.cwd ["temp.lmps"] ∈ wTemp.files ∧
      resolvePath wStage0.cwd
        [if wTemp.bonds = 0 then "data.lmps" else "init.lmps"] ∈ wStage0.files) ∧
    (setup_step wTemp1 = Except.ok wStage1 ∧
      resolvePath wStage1.cwd
        [if wTemp1.bonds = 0 then "data.lmps" else "init.lmps"] ∈ wStage1.files) := by
  refine ⟨⟨setupStage0_eval, ?_, ?_⟩, ⟨setupStage1_eval, ?_⟩⟩
  · exact (setup_step_staging_names setupStage0_eval).1
  · exact (setup_step_staging_names setupStage0_eval).2.2.1
  · exact (setup_step_staging_names setupStage1_eval).2.2.1

end PolymLoop
